import Mathlib

/-!
Verification of the fMRI tool-representation analysis pipeline
(`src/analysis/preprocessing.py`, `src/analysis/brain_image_processor.py`,
`src/run_analysis.py`) against its natural-language specification.

The Python code is shallowly embedded: file contents are modelled as an
abstract file system `String → Option String` (`none` models a missing file
or a read error), Python floats are modelled as rationals `ℚ`, Python dicts
with possibly-absent keys are modelled as structures with `Option` fields,
and the handful of fixed regular expressions used by the source are run by
a small executable backtracking matcher (`reMatch`/`reSearch`) that follows
Python `re` semantics (leftmost match, greedy `+` with backtracking) for
the pattern forms the source actually uses; `\d`/`\w` are modelled by their
ASCII meaning.
-/

/-- Python `str.strip()` whitespace test (ASCII whitespace). -/
def pyWS (c : Char) : Bool :=
  c = ' ' || c = '\t' || c = '\n' || c = '\r' || c = '\x0b' || c = '\x0c'

/-- Python `str.strip()`: drop leading and trailing whitespace. -/
def pyStrip (s : String) : String :=
  String.mk (((s.data.dropWhile pyWS).reverse.dropWhile pyWS).reverse)

/-- Membership of `pat` as a contiguous substring, `pat in s` in Python. -/
def subLC : List Char → List Char → Bool
  | pat, [] => pat.isPrefixOf []
  | pat, x :: xs => pat.isPrefixOf (x :: xs) || subLC pat xs

/-- Python `pat in s` for strings. -/
def strContains (s pat : String) : Bool := subLC pat.data s.data

/-- Python `s.startswith(pat)`. -/
def pyStarts (s pat : String) : Bool := pat.data.isPrefixOf s.data

/-- Split on every character satisfying `p`, keeping empty pieces
(the helper behind the Python `str.split` variants used below). -/
def splitPredAux (p : Char → Bool) : List Char → List Char → List String
  | [], acc => [String.mk acc.reverse]
  | x :: xs, acc =>
    if p x then String.mk acc.reverse :: splitPredAux p xs []
    else splitPredAux p xs (x :: acc)

/-- Python `s.split(c)` for a one-character separator. -/
def splitChar (c : Char) (s : String) : List String :=
  splitPredAux (· = c) s.data []

/-- Python `s.split()` with no argument: split on whitespace runs,
dropping empty pieces. -/
def pySplitWS (s : String) : List String :=
  (splitPredAux pyWS s.data []).filter (· ≠ "")

/-- Python `sep.join(l)`. -/
def joinSep (sep : String) : List String → String
  | [] => ""
  | [x] => x
  | x :: xs => x ++ sep ++ joinSep sep xs

/-- Python `os.path.basename` (POSIX): the part after the last `/`. -/
def basename (p : String) : String :=
  (splitChar '/' p).getLastD p

/-- Python `str.zfill(n)` for a string of digits: left-pad with `0`
to length at least `n`. -/
def zfill (n : Nat) (s : String) : String :=
  if n ≤ s.length then s
  else String.mk (List.replicate (n - s.length) '0') ++ s

/-- Numeric value of a digit string. -/
def digitsVal (l : List Char) : Nat :=
  l.foldl (fun a c => a * 10 + (c.toNat - '0'.toNat)) 0

/-- Model of Python `float(s)` as an exact rational: optional surrounding
whitespace, optional sign, decimal digits with optional fraction and
optional exponent.  (`inf`, `nan` and digit-group underscores are not
modelled.)  Returns `none` when Python `float` would raise `ValueError`. -/
def pyFloat? (s : String) : Option ℚ :=
  let cs := (pyStrip s).data
  let neg : Bool := match cs with | '-' :: _ => true | _ => false
  let cs1 := match cs with | '-' :: t => t | '+' :: t => t | t => t
  let ip := cs1.takeWhile Char.isDigit
  let r1 := cs1.drop ip.length
  let fp := match r1 with | '.' :: t => t.takeWhile Char.isDigit | _ => []
  let r2 := match r1 with | '.' :: t => t.drop fp.length | t => t
  if ip = [] ∧ fp = [] then none
  else
    let mNum : ℕ := digitsVal ip * 10 ^ fp.length + digitsVal fp
    let mk : ℕ → ℕ → ℚ := fun eNum eDen =>
      let n : ℤ := (mNum * eNum : ℕ)
      mkRat (if neg then -n else n) (10 ^ fp.length * eDen)
    match r2 with
    | [] => some (mk 1 1)
    | e :: t =>
      if e = 'e' ∨ e = 'E' then
        let eneg : Bool := match t with | '-' :: _ => true | _ => false
        let t1 := match t with | '-' :: u => u | '+' :: u => u | u => u
        let ed := t1.takeWhile Char.isDigit
        if ed = [] ∨ t1.drop ed.length ≠ [] then none
        else if eneg then some (mk 1 (10 ^ digitsVal ed))
        else some (mk (10 ^ digitsVal ed) 1)
      else none

/-- ASCII model of the regex class `\w`. -/
def wordChar (c : Char) : Bool := c.isAlphanum || c = '_'

/-- The fragment of regular expressions the source uses: literal
characters and greedy one-or-more character classes, the latter
optionally capturing. -/
inductive RE where
  | lit (c : Char)
  | plus (p : Char → Bool) (cap : Bool)

/-- Greedy backtracking for a `plus` element: try consuming `k, k-1, …, 1`
class characters and continue with `f` on the remainder; the first success
wins (Python `re` greedy semantics). -/
def plusGo (p : Char → Bool) (cap : Bool) (f : List Char → Option (List String))
    (xs : List Char) : Nat → Option (List String)
  | 0 => none
  | k + 1 =>
    match f (xs.drop (k + 1)) with
    | some caps => some (if cap then String.mk (xs.take (k + 1)) :: caps else caps)
    | none => plusGo p cap f xs k

/-- Match a pattern at the start of `xs` (Python `re.match`), returning
the list of captured groups on success. -/
def reMatch : List RE → List Char → Option (List String)
  | [], _ => some []
  | RE.lit _ :: _, [] => none
  | RE.lit c :: rest, x :: xs => if x = c then reMatch rest xs else none
  | RE.plus p cap :: rest, xs => plusGo p cap (reMatch rest) xs (xs.takeWhile p).length

/-- Scan positions left to right; the first position where the pattern
matches wins (Python `re.search`). -/
def reSearchAux (re : List RE) : List Char → Option (List String)
  | [] => reMatch re []
  | x :: xs =>
    match reMatch re (x :: xs) with
    | some caps => some caps
    | none => reSearchAux re xs

/-- Python `re.search(pattern, s)`, returning captured groups. -/
def reSearch (re : List RE) (s : String) : Option (List String) :=
  reSearchAux re s.data

/-- Turn a plain string into literal pattern elements. -/
def lits (s : String) : List RE := s.data.map RE.lit

/-- The predicates of the capturing groups of a pattern, in order. -/
def capPreds : List RE → List (Char → Bool)
  | [] => []
  | RE.lit _ :: rest => capPreds rest
  | RE.plus p true :: rest => p :: capPreds rest
  | RE.plus _ false :: rest => capPreds rest

example : pyStrip "  a\tb \n" = "a\tb" := by decide
example : strContains "xx start of scan yy" "start of scan" = true := by decide
example : pySplitWS " 1.0  2:16 " = ["1.0", "2:16"] := by decide
example : pyFloat? "3.5" = some (mkRat 7 2) := by decide
example : pyFloat? "2.3e-4" = some (mkRat 23 100000) := by decide
example : pyFloat? "-1.5" = some (mkRat (-3) 2) := by decide
example : pyFloat? "10" = some 10 := by decide
example : splitChar '\t' "1.0\tEXP\ta b" = ["1.0", "EXP", "a b"] := by decide
example : basename "data/raw/S01/x.log" = "x.log" := by decide
example : joinSep "\t" ["a", "b"] = "a\tb" := by decide
example : zfill 2 "1" = "01" := by decide
example : pyFloat? "" = none := by decide
example : pyFloat? "*" = none := by decide
example : reSearch [RE.lit 'S', RE.plus Char.isDigit true] "S01_PV_tool.txt" = some ["01"] := by decide
example : reSearch [RE.plus wordChar true, RE.lit '_', RE.plus Char.isDigit true, RE.lit '_']
    "Annika_1_x" = some ["Annika", "1"] := by decide

/-! ## `DataProcessor` helpers (src/analysis/preprocessing.py) -/

/-- The apostrophe character (used by the trial-line regexes). -/
def apos : Char := Char.ofNat 39

/-- Model of `DataProcessor._extract_participant_id`: try `S(\d+)`, then `^(\d+)_`,
then `(\w+)_(\d+)_`; zero-pad the matched digits to width 2; otherwise
return `"Unknown"`. -/
def extract_participant_id (filename : String) : String :=
  match reSearch [RE.lit 'S', RE.plus Char.isDigit true] filename with
  | some caps => "S" ++ zfill 2 (caps.headD "")
  | none =>
    match reMatch [RE.plus Char.isDigit true, RE.lit '_'] filename.data with
    | some caps => "S" ++ zfill 2 (caps.headD "")
    | none =>
      match reSearch [RE.plus wordChar true, RE.lit '_',
          RE.plus Char.isDigit true, RE.lit '_'] filename with
      | some caps => "S" ++ zfill 2 ((caps.drop 1).headD "")
      | none => "Unknown"

/-- ASCII lower-casing of one character (model of Python `str.lower`). -/
def lowerChar (c : Char) : Char :=
  if 'A' ≤ c ∧ c ≤ 'Z' then Char.ofNat (c.toNat + 32) else c

/-- Python `s.lower()` (ASCII model). -/
def lowerStr (s : String) : String := String.mk (s.data.map lowerChar)

/-- Model of `DataProcessor._extract_condition`: keyword lookup on the lower-cased
filename. -/
def extract_condition (filename : String) : String :=
  let fl := lowerStr filename
  if strContains fl "passive" || strContains fl "pv" then "passive_viewing"
  else if strContains fl "active" || strContains fl "grasp" then "active_grasp"
  else if strContains fl "clench" then "clench"
  else if strContains fl "imagined" || strContains fl "ig" then "imagined_grasp"
  else "unknown"

/-- Model of `DataProcessor._parse_condition_filename`:
`re.match(r'S\d+_(\w+)_(\w+)\.txt', filename)`. -/
def parse_condition_filename (filename : String) : String × String :=
  match reMatch ([RE.lit 'S', RE.plus Char.isDigit false, RE.lit '_',
      RE.plus wordChar true, RE.lit '_', RE.plus wordChar true] ++ lits ".txt")
      filename.data with
  | some caps => (caps.headD "unknown", (caps.drop 1).headD "unknown")
  | none => ("unknown", "unknown")

/-- One entry of `trial_data['trials']` (from `_parse_trial_line`). -/
structure TrialInfo where
  trial_timestamp : ℚ
  trial_index : Option ℕ
  trial_rep : Option ℕ
  image_file : Option String
  stimulus_type : Option String
deriving DecidableEq

/-- One entry of `trial_data['stimulus_timings']`. -/
structure StimTiming where
  stimulus : String
  onset : ℚ
deriving DecidableEq

/-- One entry of `trial_data['keypresses']`. -/
structure Keypress where
  key : String
  timestamp : ℚ
deriving DecidableEq

/-- The dictionary built by `parse_psychopy_logs`.  The
`stimulus_timings` and `keypresses` keys exist in the Python dict only
once the first entry is appended; the empty list models the absent key. -/
structure LogData where
  file_path : String
  participant_id : Option String
  condition : Option String
  trials : List TrialInfo
  scan_start : Option ℚ
  scan_end : Option ℚ
  stimulus_timings : List StimTiming
  keypresses : List Keypress
deriving DecidableEq

/-- The dictionary built by `parse_condition_files`. -/
structure CondData where
  file_path : String
  participant_id : Option String
  condition_type : Option String
  stimulus_type : Option String
  timing_points : List ℚ
  duration : Option ℚ
deriving DecidableEq

/-- Model of `DataProcessor._parse_trial_line` (the timestamp is parsed by the
caller so that a `float` failure is reported there). -/
def parse_trial_line (content : String) (ts : ℚ) : TrialInfo :=
  { trial_timestamp := ts
    trial_index := (reSearch (lits "index=" ++ [RE.plus Char.isDigit true]) content).map
      (fun caps => digitsVal (caps.headD "").data)
    trial_rep := (reSearch (lits "rep=" ++ [RE.plus Char.isDigit true]) content).map
      (fun caps => digitsVal (caps.headD "").data)
    image_file := (reSearch (lits "imagefile" ++ [RE.lit apos, RE.lit ',', RE.lit ' ',
      RE.lit apos, RE.plus (· != apos) true, RE.lit apos]) content).map (·.headD "")
    stimulus_type := (reSearch (lits "type" ++ [RE.lit apos, RE.lit ',', RE.lit ' ',
      RE.lit apos, RE.plus (· != apos) true, RE.lit apos]) content).map (·.headD "") }

/-- The stimulus name extracted by `_parse_stimulus_presentation`:
`re.search(r'(\w+): autoDraw = True', content)`. -/
def stimName (content : String) : Option String :=
  (reSearch ([RE.plus wordChar true] ++ lits ": autoDraw = True") content).map (·.headD "")

/-- The key extracted by `_parse_keypress`: `re.search(r'Keypress: (\w+)')`. -/
def keyName (content : String) : Option String :=
  (reSearch (lits "Keypress: " ++ [RE.plus wordChar true]) content).map (·.headD "")

/-- The per-line preamble of the `parse_psychopy_logs` loop: strip the
line, skip it when empty or when it has fewer than two tab-separated
parts, otherwise return the timestamp and the re-joined content. -/
def lineParts (rawLine : String) : Option (String × String) :=
  let l := pyStrip rawLine
  if l = "" then none
  else
    let parts := splitChar '\t' l
    if parts.length < 2 then none
    else some (parts.headD "", joinSep "\t" (parts.drop 2))

/-- Model of Python `float(timestamp)` inside the parsing loop: a
`ValueError` is the only exception the loop can raise, and the
surrounding `try`/`except` then returns the dictionary as accumulated so
far (carried on the `error` branch). -/
def getFloat (ts : String) (acc : LogData) : Except LogData ℚ :=
  match pyFloat? ts with
  | some q => .ok q
  | none => .error acc

/-- Track-scan-start check of the loop (also flips `scan_started`). -/
def step1 (timestamp content : String) (acc : LogData) (st : Bool) :
    Except LogData (LogData × Bool) :=
  if strContains content "start of scan" then
    match getFloat timestamp acc with
    | .error d => .error d
    | .ok t => .ok ({ acc with scan_start := some t }, true)
  else .ok (acc, st)

/-- Track-scan-end check of the loop. -/
def step2 (timestamp content : String) (st : Bool) (acc : LogData) :
    Except LogData LogData :=
  if strContains content "window1: mouseVisible = True" && st then
    match getFloat timestamp acc with
    | .error d => .error d
    | .ok t => .ok { acc with scan_end := some t }
  else .ok acc

/-- New-trial check of the loop (`_parse_trial_line` always returns a
truthy dict, so a parsed line is always appended). -/
def step3 (timestamp content : String) (st : Bool) (acc : LogData) :
    Except LogData LogData :=
  if st && strContains content "New trial" then
    match getFloat timestamp acc with
    | .error d => .error d
    | .ok t => .ok { acc with trials := acc.trials ++ [parse_trial_line content t] }
  else .ok acc

/-- Stimulus-presentation check of the loop
(`_parse_stimulus_presentation`). -/
def step4 (timestamp content : String) (st : Bool) (acc : LogData) :
    Except LogData LogData :=
  if st && strContains content "autoDraw = True" then
    match stimName content with
    | some nm =>
      match getFloat timestamp acc with
      | .error d => .error d
      | .ok t => .ok { acc with stimulus_timings := acc.stimulus_timings ++ [⟨nm, t⟩] }
    | none => .ok acc
  else .ok acc

/-- Keypress check of the loop (`_parse_keypress`). -/
def step5 (timestamp content : String) (st : Bool) (acc : LogData) :
    Except LogData LogData :=
  if st && strContains content "Keypress:" then
    match keyName content with
    | some k =>
      match getFloat timestamp acc with
      | .error d => .error d
      | .ok t => .ok { acc with keypresses := acc.keypresses ++ [⟨k, t⟩] }
    | none => .ok acc
  else .ok acc

/-- The five checks of the loop body in source order, each seeing the
state left by the previous one. -/
def stepBody (timestamp content : String) (acc0 : LogData) (started0 : Bool) :
    Except LogData (LogData × Bool) :=
  match step1 timestamp content acc0 started0 with
  | .error d => .error d
  | .ok (a1, st1) =>
    match step2 timestamp content st1 a1 with
    | .error d => .error d
    | .ok a2 =>
      match step3 timestamp content st1 a2 with
      | .error d => .error d
      | .ok a3 =>
        match step4 timestamp content st1 a3 with
        | .error d => .error d
        | .ok a4 =>
          match step5 timestamp content st1 a4 with
          | .error d => .error d
          | .ok a5 => .ok (a5, st1)

/-- One iteration of the `parse_psychopy_logs` line loop. -/
def stepLine (acc0 : LogData) (started0 : Bool) (rawLine : String) :
    Except LogData (LogData × Bool) :=
  match lineParts rawLine with
  | none => .ok (acc0, started0)
  | some (timestamp, content) => stepBody timestamp content acc0 started0

/-- The `parse_psychopy_logs` line loop; an uncaught `ValueError`
(`error` branch) returns the dictionary accumulated so far. -/
def processLines : List String → LogData → Bool → LogData
  | [], acc, _ => acc
  | l :: rest, acc, started =>
    match stepLine acc started l with
    | .error d => d
    | .ok (acc2, s2) => processLines rest acc2 s2

/-- The dictionary `parse_psychopy_logs` initialises before the `try`. -/
def initLogData (path : String) : LogData :=
  { file_path := path, participant_id := none, condition := none, trials := [],
    scan_start := none, scan_end := none, stimulus_timings := [], keypresses := [] }

/-- Model of `DataProcessor.parse_psychopy_logs` over an abstract file system
(`none` models a missing/unreadable file, in which case the `except`
branch returns the initial dictionary). -/
def parse_psychopy_logs (fs : String → Option String) (path : String) : LogData :=
  match fs path with
  | none => initLogData path
  | some text =>
    let fn := basename path
    let d0 := { initLogData path with
                participant_id := some (extract_participant_id fn),
                condition := some (extract_condition fn) }
    processLines (splitChar '\n' text) d0 false

/-- Maximum of a non-empty list (Python `max`). -/
def listMax : List ℚ → ℚ
  | [] => 0
  | x :: xs => xs.foldl max x

/-- Minimum of a non-empty list (Python `min`). -/
def listMin : List ℚ → ℚ
  | [] => 0
  | x :: xs => xs.foldl min x

/-- Model of `DataProcessor.parse_condition_files` over an abstract file system.
The filename metadata is extracted before the file is opened, so it is
present even when reading fails. -/
def parse_condition_files (fs : String → Option String) (path : String) : CondData :=
  let fn := basename path
  let ct := parse_condition_filename fn
  let base : CondData :=
    { file_path := path, participant_id := some (extract_participant_id fn),
      condition_type := some ct.1, stimulus_type := some ct.2,
      timing_points := [], duration := none }
  match fs path with
  | none => base
  | some raw =>
    let content := pyStrip raw
    if content ≠ "" ∧ ¬ pyStarts content "*" then
      let tps := (pySplitWS content).filterMap
        (fun tok => pyFloat? ((splitChar ':' tok).headD ""))
      { base with
        timing_points := tps
        duration := if tps ≠ [] then some (listMax tps - listMin tps) else none }
    else base

example :
    extract_participant_id "S01_run03_clench_2020_Mar_11_1350.log" = "S01" := by decide
example : extract_participant_id "log.txt" = "Unknown" := by decide
example : extract_participant_id "Annika_1_test.log" = "S01" := by decide
example : extract_condition "S01_run03_clench_2020_Mar_11_1350.log" = "clench" := by decide
example : parse_condition_filename "S01_PV_tool.txt" = ("PV", "tool") := by decide
example : parse_condition_filename "S01_clench.txt" = ("unknown", "unknown") := by decide

/-! ## Matching and trial records -/

/-- The fixed `condition_mapping` table inside
`DataProcessor._match_log_condition` (`dict.get` with default `''` is
modelled by `Option` plus `getD ""` at the use site). -/
def condition_mapping (c : String) : Option String :=
  if c = "passive_viewing" then some "PV"
  else if c = "active_grasp" then some "IG"
  else if c = "clench" then some "clench"
  else if c = "imagined_grasp" then some "IG"
  else none

/-- Model of `DataProcessor._match_log_condition`: participant IDs must be equal
(Python `==`, where `None == None` holds) and the mapped log condition
code must equal the condition file's `condition_type` (a Python string
never equals `None`). -/
def match_log_condition (log : LogData) (cond : CondData) : Bool :=
  if log.participant_id != cond.participant_id then false
  else
    let code := (match log.condition with
      | none => ""
      | some c => (condition_mapping c).getD "")
    match cond.condition_type with
    | some ct => code == ct
    | none => false

/-- One combined trial record (`_combine_log_condition_data`).  Python
builds a dict whose keys vary: `stimulus_onset`/`stimulus_name` are added
only when an i-th stimulus timing exists, and a `stimulus_offset` key (as
well as `run_number`/`run_description` outside the S01 path) is never
added by `_combine_log_condition_data`; `none` models the absent key. -/
structure TrialRecord where
  participant_id : Option String
  condition : Option String
  stimulus_type : Option String
  trial_number : ℕ
  trial_timestamp : Option ℚ
  image_file : Option String
  scan_start : Option ℚ
  scan_end : Option ℚ
  timing_points : List ℚ
  condition_duration : Option ℚ
  stimulus_onset : Option ℚ
  stimulus_name : Option String
  stimulus_offset : Option ℚ
  run_number : Option ℕ
  run_description : Option String
deriving DecidableEq

/-- Model of `DataProcessor._combine_log_condition_data`. -/
def combine_log_condition_data (log : LogData) (cond : CondData) : List TrialRecord :=
  log.trials.enum.map (fun p =>
    { participant_id := log.participant_id
      condition := log.condition
      stimulus_type := cond.stimulus_type
      trial_number := p.1 + 1
      trial_timestamp := some p.2.trial_timestamp
      image_file := p.2.image_file
      scan_start := log.scan_start
      scan_end := log.scan_end
      timing_points := cond.timing_points
      condition_duration := cond.duration
      stimulus_onset := (log.stimulus_timings.get? p.1).map StimTiming.onset
      stimulus_name := (log.stimulus_timings.get? p.1).map StimTiming.stimulus
      stimulus_offset := none
      run_number := none
      run_description := none })

/-- The standard (non-S01) inner loop of
`DataProcessor.create_trial_dataframe`: every log file is paired with
every condition file, and a pair contributes trial records exactly when
`_match_log_condition` accepts it. -/
def standard_participant_trials (fs : String → Option String)
    (logFiles condFiles : List String) : List TrialRecord :=
  logFiles.flatMap (fun lf =>
    let ld := parse_psychopy_logs fs lf
    condFiles.flatMap (fun cf =>
      let cd := parse_condition_files fs cf
      if match_log_condition ld cd then combine_log_condition_data ld cd else []))

/-- One entry of the hard-coded `s01_runs` list in
`_process_s01_complete_design`. -/
structure S01Run where
  log_file : String
  condition : String
  run_number : ℕ
  description : String
deriving DecidableEq

/-- The hard-coded `s01_runs` list. -/
def s01_runs : List S01Run :=
  [⟨"S01/experimental_runs/run01_passive_viewing/S01_run01_passive_viewing_2020_Mar_11_1324.log",
    "passive_viewing", 1, "Passive Viewing Task"⟩,
   ⟨"S01/experimental_runs/run02_imagined_grasp/S01_run02_imagined_grasp_2020_Mar_11_1335.log",
    "imagined_grasp", 2, "Imagined Grasp Task"⟩,
   ⟨"S01/experimental_runs/run03_clench/S01_run03_clench_2020_Mar_11_1350.log",
    "clench", 3, "Clench Localizer Task"⟩]

/-- The per-condition filename patterns of
`DataProcessor._get_s01_condition_files`. -/
def s01_condition_patterns (condition : String) : List String :=
  if condition = "passive_viewing" then
    ["S01_PV_tool.txt", "S01_PV_Shape.txt", "S01_PV_SCRtool.txt", "S01_PV_SCRshape.txt"]
  else if condition = "imagined_grasp" then
    ["S01_IG_tool.txt", "S01_IG_shape.txt", "S01_IG_SCRtool.txt", "S01_IG_SCRshape.txt"]
  else if condition = "clench" then ["S01_clench.txt"]
  else []

/-- Model of `DataProcessor._get_s01_condition_files`: keep the pattern paths that
exist; a missing file is logged and skipped. -/
def get_s01_condition_files (fs : String → Option String)
    (dataRoot condition : String) : List String :=
  (s01_condition_patterns condition).filterMap (fun p =>
    let fp := dataRoot ++ "/raw/S01/condition_files/" ++ p
    if (fs fp).isSome then some fp else none)

/-- The absolute path of an S01 run's log file. -/
def s01_log_path (dataRoot : String) (run : S01Run) : String :=
  dataRoot ++ "/raw/" ++ run.log_file

/-- The body of the `_process_s01_complete_design` loop for one run whose
log file exists: the log is combined with every condition file of the
run's condition, with no `_match_log_condition` check, and the run
information is stamped onto each record. -/
def run_trials (fs : String → Option String) (dataRoot : String)
    (run : S01Run) : List TrialRecord :=
  let logData := parse_psychopy_logs fs (s01_log_path dataRoot run)
  (get_s01_condition_files fs dataRoot run.condition).flatMap (fun cf =>
    let condData := parse_condition_files fs cf
    (combine_log_condition_data logData condData).map (fun t =>
      { t with
        run_number := some run.run_number
        run_description := some run.description
        participant_id := some "S01"
        condition := some run.condition }))

/-- Model of `DataProcessor._process_s01_complete_design`: process the three
hard-coded runs, skipping a run whose log file is missing. -/
def process_s01_complete_design (fs : String → Option String)
    (dataRoot : String) : List TrialRecord :=
  s01_runs.flatMap (fun run =>
    if (fs (s01_log_path dataRoot run)).isSome then run_trials fs dataRoot run else [])

/-! ## `BrainImageProcessor` (src/analysis/brain_image_processor.py) -/

/-- An MNI coordinate triple. -/
structure MNICoord where
  x : ℤ
  y : ℤ
  z : ℤ
deriving DecidableEq

/-- One statistics record (threshold, p, q). -/
structure StatRec where
  threshold : ℚ
  p : ℚ
  q : ℚ
deriving DecidableEq

/-- One entry of `self.brain_image_mapping`.  In Python `mni_coords` and
`stats` are either a single dict or a list of dicts; the sum type models
that dynamic typing. -/
structure BrainInfo where
  filename : String
  condition : String
  description : String
  regions : List String
  mni_coords : MNICoord ⊕ List MNICoord
  stats : StatRec ⊕ List StatRec
deriving DecidableEq

/-- The static `brain_image_mapping` table built in
`BrainImageProcessor.__init__`, in dict insertion order.  Decimal
float literals are written as exact rationals via `mkRat`. -/
def brain_image_mapping : List (String × BrainInfo) :=
  [("clench",
    { filename := "clench_afni.png"
      condition := "Clench Localizer"
      description := "Finger clenching task - M1 activation"
      regions := ["Primary Motor Cortex (M1)", "Brodmann Area 4", "Brodmann Area 6"]
      mni_coords := .inl ⟨-40, 22, 62⟩
      stats := .inl ⟨mkRat 37037 10000, mkRat 23 100000, mkRat 47 10000⟩ }),
   ("imagined_grasp",
    { filename := "IGshape_tool_vs_PVshape_tool_GLT#0_Tstat.png"
      condition := "Imagined Grasp (Tools + Shapes)"
      description := "Imagined grasping task - combined tools and shapes"
      regions := ["Left superior frontal gyrus", "Parietal lobe",
                  "LOC (Lateral Occipital Complex)"]
      mni_coords := .inr [⟨24, -58, 22⟩, ⟨24, 50, 54⟩, ⟨24, 90, 24⟩]
      stats := .inr [⟨mkRat 35391 10000, mkRat 16 10000, mkRat 199 10000⟩,
                     ⟨mkRat 35391 10000, mkRat 16 10000, mkRat 199 10000⟩,
                     ⟨mkRat 31687 10000, mkRat 16 10000, mkRat 199 10000⟩] }),
   ("passive_viewing",
    { filename := "results.png"
      condition := "Passive Viewing: Tool vs Shape"
      description := "Passive viewing contrast - tools vs shapes"
      regions := ["LOC; V1; V2; BA 18/17", "Left Pre/Postcentral Gyrus; BA 3-5"]
      mni_coords := .inr [⟨22, 100, -2⟩, ⟨10, 44, 70⟩]
      stats := .inr [⟨mkRat 35802 10000, mkRat 37 100000, mkRat 111 10000⟩,
                     ⟨mkRat 35802 10000, mkRat 37 100000, mkRat 111 10000⟩] }),
   ("imagined_vs_passive",
    { filename := "Screen Shot 2020-04-21 at 4.01.26 AM.png"
      condition := "Average Imagined Grasp vs Passive Viewing"
      description := "Contrast between imagined grasp and passive viewing"
      regions := ["Left superior frontal gyrus", "Brodmann Area 6",
                  "Left superior parietal lobe"]
      mni_coords := .inr [⟨22, -54, 18⟩, ⟨22, 10, 68⟩, ⟨22, 48, 68⟩]
      stats := .inr [⟨mkRat 35391 10000, mkRat 44 100000, mkRat 533 10000⟩,
                     ⟨mkRat 35391 10000, mkRat 44 100000, mkRat 533 10000⟩,
                     ⟨mkRat 35391 10000, mkRat 44 100000, mkRat 533 10000⟩] })]

/-- Model of `BrainImageProcessor.load_brain_images`: an entry is produced exactly
when the image file exists (`ex`) and `Image.open` succeeds (`ld`); a
missing image is logged and skipped, a failing open is logged and
skipped.  The stored image object itself is not modelled. -/
def load_brain_images (ex ld : String → Bool) (rawPath : String) :
    List (String × BrainInfo) :=
  brain_image_mapping.filter (fun e =>
    let p := rawPath ++ "/" ++ e.2.filename
    ex p && ld p)

/-- One row of a statistical table (`generate_statistical_tables`). -/
structure StatRow where
  region : String
  mni_x : ℤ
  mni_y : ℤ
  mni_z : ℤ
  threshold : ℚ
  p_value : ℚ
  q_value : ℚ
deriving DecidableEq

/-- The per-condition body of
`BrainImageProcessor.generate_statistical_tables`.  In the list branch
Python iterates over `regions` and indexes `coords[i]`/`stats[i]`; an
out-of-range index raises (uncaught), which the `Option` models.  In the
single-coordinate branch exactly one row is built from `regions[0]`. -/
def tableFor (info : BrainInfo) : Option (List StatRow) :=
  match info.mni_coords with
  | .inr coords =>
    info.regions.enum.mapM (fun pr => do
      let coord ← coords.get? pr.1
      let stat ← (match info.stats with | .inr l => l.get? pr.1 | .inl _ => none)
      pure { region := pr.2, mni_x := coord.x, mni_y := coord.y, mni_z := coord.z,
             threshold := stat.threshold, p_value := stat.p, q_value := stat.q })
  | .inl coord => do
    let r ← info.regions.get? 0
    let stat ← (match info.stats with | .inl s => some s | .inr _ => none)
    pure [{ region := r, mni_x := coord.x, mni_y := coord.y, mni_z := coord.z,
            threshold := stat.threshold, p_value := stat.p, q_value := stat.q }]

/-- Model of `BrainImageProcessor.generate_statistical_tables` over loaded brain
data. -/
def generate_statistical_tables (bd : List (String × BrainInfo)) :
    Option (List (String × List StatRow)) :=
  bd.mapM (fun e => (tableFor e.2).map (fun t => (e.1, t)))

/-! ## `run_analysis.py` -/

/-- Model of the `argparse` parser built in `main`: it declares the
single optional flag `--verbose` (`store_true`).  `none` models the
parser's error exit on an unrecognised argument; the auto-generated
help flag and prefix abbreviations of `argparse` are not modelled. -/
def parse_args (args : List String) : Option Bool :=
  match args with
  | [] => some false
  | ["--verbose"] => some true
  | _ => none

/-- Dictionary lookup `d.get(k, default)` on an association list. -/
def dictGet (l : List (String × String)) (k d : String) : String :=
  ((l.find? (·.1 == k)).map (·.2)).getD d

/-- The data `main` receives from the library calls it makes (dataframe
sizes, analysis results, exported paths, timestamps); `main`'s own
control flow and printing are modelled over this environment. -/
structure MainEnv where
  startedAt : String
  completedAt : String
  dfLen : ℕ
  hasRunNumber : Bool
  nRuns : ℕ
  run1 : ℕ
  run2 : ℕ
  run3 : ℕ
  nConditions : ℕ
  nStimTypes : ℕ
  exported : List (String × String)
  totalImages : ℕ
  rq1 : ℕ
  rq2 : ℕ
  rq3 : ℕ
  tTest : Option (String × String)
  plots : List (String × String)
  nResultsRows : ℕ
  pubFiles : List (String × String)
  reportPath : String
  brainSummary : String

/-- The line `"=" * 80`. -/
def eq80 : String := String.mk (List.replicate 80 '=')

/-- The line `"-" * 40`. -/
def d40 : String := String.mk (List.replicate 40 '-')

/-- The lines `main` prints before the PHASE 1 header. -/
def seg0 (env : MainEnv) : List String :=
  [eq80, "fMRI Tool Representation Study - Complete Analysis Pipeline", eq80,
   "Started: " ++ env.startedAt, ""]

/-- PHASE 1 lines up to the `df.empty` check. -/
def seg1 : List String :=
  [d40, "Processing S01 representative subject data..."]

/-- PHASE 1 lines after a non-empty dataframe. -/
def seg2 (env : MainEnv) : List String :=
  ["✓ Successfully processed " ++ toString env.dfLen ++ " trials",
   "✓ Participant: S01 - Representative Subject",
   "✓ Experimental Runs: " ++ (if env.hasRunNumber then toString env.nRuns else "N/A"),
   "✓ Conditions: " ++ toString env.nConditions,
   "✓ Stimulus types: " ++ toString env.nStimTypes]
  ++ (if env.hasRunNumber then
      ["✓ Run 1 (Passive Viewing): " ++ toString env.run1 ++ " trials",
       "✓ Run 2 (Imagined Grasp): " ++ toString env.run2 ++ " trials",
       "✓ Run 3 (Clench Localizer): " ++ toString env.run3 ++ " trials"]
     else [])
  ++ ["", "Generating data quality report...", "✓ Data quality report generated",
      "", "Exporting processed data...",
      "✓ Exported " ++ toString env.exported.length ++ " data files", ""]

/-- PHASE 2 body. -/
def seg3 (env : MainEnv) : List String :=
  [d40, "Processing AFNI brain activation screenshots..."]
  ++ (if 0 < env.totalImages then
      ["✓ Loaded " ++ toString env.totalImages ++ " brain activation images",
       "✓ Clench localizer: M1 activation (MNI: -40, 22, 62)",
       "✓ IG activation: Superior frontal gyrus, parietal lobe, LOC",
       "✓ PV Tool vs Shape: LOC, V1/V2, pre/postcentral gyrus",
       "✓ IG vs PV contrast: Superior frontal gyrus, BA6, superior parietal lobe",
       "✓ Images integrated into visualization pipeline"]
     else
      ["✓ Brain image processing: Demo mode (simulated activation data)",
       "✓ Clench localizer: M1 activation patterns simulated",
       "✓ IG activation: Parietofrontal network patterns simulated",
       "✓ PV Tool vs Shape: Visual cortex patterns simulated",
       "✓ IG vs PV contrast: Motor imagery patterns simulated",
       "✓ Statistical results integrated from analysis pipeline"])
  ++ [""]

/-- PHASE 3 body. -/
def seg4 (env : MainEnv) : List String :=
  [d40, "Running comprehensive statistical analysis...",
   "✓ Comprehensive statistical analysis completed",
   "✓ RQ1 (Tools Special): " ++ toString env.rq1 ++ " analyses",
   "✓ RQ2 (Action Potentiation): " ++ toString env.rq2 ++ " analyses",
   "✓ RQ3 (Functional vs Structural): " ++ toString env.rq3 ++ " analyses",
   "", "Running tools vs shapes comparison..."]
  ++ (match env.tTest with
      | some pv => ["✓ Tools vs Shapes: p = " ++ pv.1 ++ ", Significant = " ++ pv.2]
      | none => [])
  ++ [""]

/-- PHASE 4 body. -/
def seg5 (env : MainEnv) : List String :=
  [d40, "Creating behavioral results plot...",
   "✓ Created " ++ toString env.plots.length ++ " visualization file",
   "", "Generating comprehensive results...",
   "✓ Summary statistics generated",
   "✓ Results table created (" ++ toString env.nResultsRows ++ " rows)",
   "", "Exporting publication-ready results...",
   "✓ Exported " ++ toString env.pubFiles.length ++ " publication files",
   "✓ Comprehensive report written to: " ++ env.reportPath, ""]

/-- PHASE 5 body (summary and deliverables). -/
def seg6 (env : MainEnv) : List String :=
  [d40, "ANALYSIS PIPELINE COMPLETE!", "", "DELIVERABLES GENERATED:", "",
   "1. DATA PROCESSING (S01 Representative Subject):",
   "   • Clean dataset: " ++ toString env.dfLen ++ " trials processed",
   "   • Run 1 (Passive Viewing): Complete experimental design",
   "   • Run 2 (Imagined Grasp): Complete experimental design",
   "   • Run 3 (Clench Localizer): Complete experimental design",
   "   • Quality report: " ++ dictGet env.exported "quality_report" "N/A",
   "   • CSV export: " ++ dictGet env.exported "csv" "N/A",
   "   • Excel export: " ++ dictGet env.exported "excel" "N/A", "",
   "2. BRAIN IMAGE PROCESSING:"]
  ++ (if 0 < env.totalImages then
      ["   • AFNI screenshots: " ++ toString env.totalImages ++ " brain activation images",
       "   • Clench localizer: M1 activation patterns",
       "   • Imagined grasp: Frontal-parietal network",
       "   • Passive viewing: Tool vs shape contrasts",
       "   • Statistical tables: MNI coordinates and p-values"]
     else
      ["   • Brain image processing: Demo mode (simulated activation data)",
       "   • Clench localizer: M1 activation patterns (simulated)",
       "   • Imagined grasp: Frontal-parietal network (simulated)",
       "   • Passive viewing: Tool vs shape contrasts (simulated)",
       "   • Statistical tables: MNI coordinates and p-values"])
  ++ ["", "3. STATISTICAL ANALYSIS:",
      "   • Research Question 1: Tools vs Shapes analysis",
      "   • Research Question 2: Action Potentiation analysis",
      "   • Research Question 3: Functional vs Structural analysis",
      "   • Motor network analysis",
      "   • Effect size calculations", "",
      "4. BEHAVIORAL VISUALIZATION:"]
  ++ env.plots.map (fun pr => "   • " ++ pr.1 ++ ": " ++ pr.2)
  ++ ["", "5. BRAIN IMAGE PROCESSING:",
      "   • Brain activation maps: Integrated with behavioral data", "",
      "6. RESULTS & REPORTING:"]
  ++ env.pubFiles.map (fun pr => "   • " ++ pr.1 ++ ": " ++ pr.2)
  ++ ["", "7. COMPREHENSIVE DOCUMENTATION:",
      "   • Analysis report: " ++ env.reportPath,
      "   • Brain image summary: " ++ env.brainSummary, "",
      "KEY FINDINGS:",
      "• Successfully processed S01 representative subject data",
      "• Complete experimental design: 3 runs (PV, IG, Clench)",
      "• Integrated real brain activation images from AFNI analysis",
      "• Generated realistic statistical data matching actual results",
      "• Demonstrated complete fMRI analysis pipeline", "",
      "TECHNICAL ACHIEVEMENTS:",
      "• Professional Python code with comprehensive documentation",
      "• Modular, reusable analysis components",
      "• Automated data processing and quality control",
      "• Brain image processing and integration",
      "• Statistical analysis addressing research questions",
      "• Automated results reporting",
      "• Single-subject representative analysis pipeline", "",
      eq80, "ANALYSIS PIPELINE COMPLETED SUCCESSFULLY!",
      "Completed: " ++ env.completedAt, eq80]

/-- The sequence of lines `main` prints, in program order: the PHASE
headers are emitted in the fixed order 1–5, and an empty dataframe makes
`main` print an error and return right after the PHASE 1 processing
step. -/
def mainTrace (env : MainEnv) : List String :=
  seg0 env ++ "PHASE 1: DATA PROCESSING" :: seg1
  ++ (if env.dfLen = 0 then ["ERROR: No S01 data could be processed!"]
      else seg2 env ++ "PHASE 2: BRAIN IMAGE PROCESSING" :: seg3 env
        ++ "PHASE 3: STATISTICAL ANALYSIS" :: seg4 env
        ++ "PHASE 4: VISUALIZATION & RESULTS" :: seg5 env
        ++ "PHASE 5: SUMMARY & DELIVERABLES" :: seg6 env)

/-- The five phase headers in the order the spec states. -/
def phaseHeaders : List String :=
  ["PHASE 1: DATA PROCESSING", "PHASE 2: BRAIN IMAGE PROCESSING",
   "PHASE 3: STATISTICAL ANALYSIS", "PHASE 4: VISUALIZATION & RESULTS",
   "PHASE 5: SUMMARY & DELIVERABLES"]

/-! ## Helper lemmas -/

/-- A capture is well formed for a class predicate: non-empty and all its
characters satisfy the predicate. -/
def capOK (p : Char → Bool) (c : String) : Prop :=
  c.data ≠ [] ∧ ∀ ch ∈ c.data, p ch = true

theorem plusGo_spec (p : Char → Bool) (cap : Bool)
    (f : List Char → Option (List String)) (xs : List Char) :
    ∀ (k : ℕ) (caps : List String), plusGo p cap f xs k = some caps →
    ∃ j caps', 1 ≤ j ∧ j ≤ k ∧ f (xs.drop j) = some caps' ∧
      caps = if cap then String.mk (xs.take j) :: caps' else caps' := by
  intro k
  induction k with
  | zero => intro caps h; simp [plusGo] at h
  | succ k ih =>
    intro caps h
    rw [plusGo] at h
    cases hf : f (xs.drop (k + 1)) with
    | some caps' =>
      rw [hf] at h
      exact ⟨k + 1, caps', by omega, le_refl _, hf, by simpa using h.symm⟩
    | none =>
      rw [hf] at h
      obtain ⟨j, caps', h1, h2, h3, h4⟩ := ih caps h
      exact ⟨j, caps', h1, by omega, h3, h4⟩

theorem mem_take_of_le_takeWhile {p : Char → Bool} {xs : List Char} {j : ℕ}
    (hj : j ≤ (xs.takeWhile p).length) : ∀ c ∈ xs.take j, p c = true := by
  intro c hc
  have hpre : xs.take j = (xs.takeWhile p).take j := by
    conv_lhs => rw [← List.takeWhile_append_dropWhile p xs]
    exact List.take_append_of_le_length hj
  rw [hpre] at hc
  exact List.mem_takeWhile_imp (List.take_subset _ _ hc)

theorem take_ne_nil_of_le_takeWhile {p : Char → Bool} {xs : List Char} {j : ℕ}
    (h1 : 1 ≤ j) (hj : j ≤ (xs.takeWhile p).length) : xs.take j ≠ [] := by
  have hle : (xs.takeWhile p).length ≤ xs.length :=
    List.Sublist.length_le (List.takeWhile_sublist p)
  have hlen : (xs.take j).length = min j xs.length := List.length_take j xs
  intro hnil
  rw [hnil] at hlen
  simp at hlen
  omega

theorem reMatch_caps : ∀ (re : List RE) (xs : List Char) (caps : List String),
    reMatch re xs = some caps → List.Forall₂ capOK (capPreds re) caps := by
  intro re
  induction re with
  | nil =>
    intro xs caps h
    simp [reMatch] at h
    simp [← h, capPreds]
  | cons hd rest ih =>
    intro xs caps h
    cases hd with
    | lit c =>
      cases xs with
      | nil => simp [reMatch] at h
      | cons x xs' =>
        rw [reMatch] at h
        by_cases hx : x = c
        · rw [if_pos hx] at h
          simpa [capPreds] using ih _ _ h
        · rw [if_neg hx] at h; cases h
    | plus p cap =>
      rw [reMatch] at h
      obtain ⟨j, caps', h1, h2, h3, h4⟩ := plusGo_spec p cap _ xs _ caps h
      have hIH := ih _ _ h3
      cases cap with
      | false => simpa [capPreds, h4] using hIH
      | true =>
        subst h4
        simp only [capPreds, if_pos rfl]
        refine List.Forall₂.cons ⟨?_, ?_⟩ hIH
        · simpa using take_ne_nil_of_le_takeWhile h1 h2
        · simpa using mem_take_of_le_takeWhile h2

theorem reSearchAux_caps : ∀ (re : List RE) (xs : List Char) (caps : List String),
    reSearchAux re xs = some caps → ∃ ys, reMatch re ys = some caps := by
  intro re xs
  induction xs with
  | nil => intro caps h; exact ⟨[], h⟩
  | cons x xs ih =>
    intro caps h
    rw [reSearchAux] at h
    cases hm : reMatch re (x :: xs) with
    | some c =>
      rw [hm] at h
      exact ⟨x :: xs, by rw [hm]; exact h⟩
    | none => rw [hm] at h; exact ih caps h

theorem reSearch_caps {re : List RE} {s : String} {caps : List String}
    (h : reSearch re s = some caps) : List.Forall₂ capOK (capPreds re) caps := by
  obtain ⟨ys, hy⟩ := reSearchAux_caps re s.data caps h
  exact reMatch_caps re ys caps hy

theorem capPreds_lits_append : ∀ (l : List Char) (re : List RE),
    capPreds (l.map RE.lit ++ re) = capPreds re := by
  intro l re
  induction l with
  | nil => rfl
  | cons c l ih => simpa [capPreds] using ih

theorem forall₂_one {p : Char → Bool} {caps : List String}
    (h : List.Forall₂ capOK [p] caps) : ∃ c, caps = [c] ∧ capOK p c := by
  cases h with
  | cons hc ht => cases ht with | nil => exact ⟨_, rfl, hc⟩

theorem forall₂_two {p q : Char → Bool} {caps : List String}
    (h : List.Forall₂ capOK [p, q] caps) :
    ∃ c d, caps = [c, d] ∧ capOK p c ∧ capOK q d := by
  cases h with
  | cons hc ht =>
    cases ht with
    | cons hd ht2 => cases ht2 with | nil => exact ⟨_, _, rfl, hc, hd⟩

theorem foldl_min_le_init : ∀ (xs : List ℚ) (x : ℚ), xs.foldl min x ≤ x := by
  intro xs
  induction xs with
  | nil => intro x; simp
  | cons y ys ih =>
    intro x
    calc (y :: ys).foldl min x = ys.foldl min (min x y) := by simp
    _ ≤ min x y := ih _
    _ ≤ x := min_le_left _ _

theorem le_foldl_max_init : ∀ (xs : List ℚ) (x : ℚ), x ≤ xs.foldl max x := by
  intro xs
  induction xs with
  | nil => intro x; simp
  | cons y ys ih =>
    intro x
    calc x ≤ max x y := le_max_left _ _
    _ ≤ ys.foldl max (max x y) := ih _
    _ = (y :: ys).foldl max x := by simp

theorem listMin_le_listMax {l : List ℚ} (h : l ≠ []) : listMin l ≤ listMax l := by
  cases l with
  | nil => exact absurd rfl h
  | cons x xs =>
    calc listMin (x :: xs) = xs.foldl min x := rfl
    _ ≤ x := foldl_min_le_init xs x
    _ ≤ xs.foldl max x := le_foldl_max_init xs x
    _ = listMax (x :: xs) := rfl

theorem pyStrip_starts_star {s : String} (h : pyStarts s "*" = true) :
    pyStarts (pyStrip s) "*" = true ∧ pyStrip s ≠ "" := by
  have hdata : ∃ t, s.data = '*' :: t := by
    unfold pyStarts at h
    rw [ List.isPrefixOf_iff_prefix] at h
    obtain ⟨t, ht⟩ := h
    exact ⟨t, by simpa using ht.symm⟩
  obtain ⟨t, ht⟩ := hdata
  have hstar : pyWS '*' = false := by decide
  have hfront : s.data.dropWhile pyWS = '*' :: t := by
    rw [ht, List.dropWhile_cons, hstar]; simp
  have hkey : ∃ u, ((s.data.dropWhile pyWS).reverse.dropWhile pyWS).reverse = '*' :: u := by
    rw [hfront, show ('*' :: t).reverse = t.reverse ++ ['*'] from by simp,
      List.dropWhile_append]
    by_cases he : (t.reverse.dropWhile pyWS).isEmpty
    · rw [if_pos he]
      exact ⟨[], by simp [List.dropWhile_cons, hstar]⟩
    · rw [if_neg he]
      exact ⟨(t.reverse.dropWhile pyWS).reverse, by simp⟩
  obtain ⟨u, hu⟩ := hkey
  unfold pyStrip pyStarts
  rw [hu]
  constructor
  · simp [List.isPrefixOf]
  · intro hcon
    have := congrArg String.data hcon
    simp at this

/-! ## Claim theorems -/

/-- C10: for every filename string, `_extract_participant_id` returns
either the literal `"Unknown"` or `"S"` followed by the matched digits
zero-padded to at least two characters; in particular it never returns
an empty string (and, being a total function, never raises). -/
theorem C10_extract_participant_id_shape (fn : String) :
    (extract_participant_id fn = "Unknown" ∨
      ∃ d : String, d.data ≠ [] ∧ (∀ c ∈ d.data, Char.isDigit c = true) ∧
        extract_participant_id fn = "S" ++ zfill 2 d) ∧
    extract_participant_id fn ≠ "" := by
  have main : extract_participant_id fn = "Unknown" ∨
      ∃ d : String, d.data ≠ [] ∧ (∀ c ∈ d.data, Char.isDigit c = true) ∧
        extract_participant_id fn = "S" ++ zfill 2 d := by
    cases h1 : reSearch [RE.lit 'S', RE.plus Char.isDigit true] fn with
    | some caps =>
      obtain ⟨c, hc, hok⟩ := forall₂_one (reSearch_caps h1)
      right
      refine ⟨c, hok.1, hok.2, ?_⟩
      unfold extract_participant_id
      rw [h1, hc]
      rfl
    | none =>
      cases h2 : reMatch [RE.plus Char.isDigit true, RE.lit '_'] fn.data with
      | some caps =>
        obtain ⟨c, hc, hok⟩ := forall₂_one (reMatch_caps _ _ _ h2)
        right
        refine ⟨c, hok.1, hok.2, ?_⟩
        unfold extract_participant_id
        rw [h1, h2, hc]
        rfl
      | none =>
        cases h3 : reSearch [RE.plus wordChar true, RE.lit '_',
            RE.plus Char.isDigit true, RE.lit '_'] fn with
        | some caps =>
          obtain ⟨c, d, hcd, _, hd⟩ := forall₂_two (reSearch_caps h3)
          right
          refine ⟨d, hd.1, hd.2, ?_⟩
          unfold extract_participant_id
          rw [h1, h2, h3, hcd]
          rfl
        | none =>
          left
          unfold extract_participant_id
          rw [h1, h2, h3]
  refine ⟨main, ?_⟩
  rcases main with h | ⟨d, _, _, h⟩
  · rw [h]; decide
  · rw [h]
    intro hcon
    have := congrArg String.data hcon
    simp [String.data_append] at this

/-- C9: the dictionary returned by `parse_condition_files` has
`duration = None` exactly when `timing_points` is empty (in particular
whenever the file content starts with `'*'`), and a non-empty
`timing_points` gives `duration = max - min ≥ 0`. -/
theorem C9_duration_invariant (fs : String → Option String) (path : String) :
    ((parse_condition_files fs path).duration = none ↔
      (parse_condition_files fs path).timing_points = []) ∧
    (∀ content, fs path = some content → pyStarts content "*" = true →
      (parse_condition_files fs path).timing_points = []) ∧
    ((parse_condition_files fs path).timing_points ≠ [] →
      (parse_condition_files fs path).duration =
        some (listMax (parse_condition_files fs path).timing_points -
              listMin (parse_condition_files fs path).timing_points) ∧
      0 ≤ listMax (parse_condition_files fs path).timing_points -
          listMin (parse_condition_files fs path).timing_points) := by
  cases hfs : fs path with
  | none =>
    simp [parse_condition_files, hfs]
  | some raw =>
    by_cases hcond : pyStrip raw ≠ "" ∧ ¬ pyStarts (pyStrip raw) "*" = true
    · have hrepr : parse_condition_files fs path =
          { file_path := path
            participant_id := some (extract_participant_id (basename path))
            condition_type := some (parse_condition_filename (basename path)).1
            stimulus_type := some (parse_condition_filename (basename path)).2
            timing_points := (pySplitWS (pyStrip raw)).filterMap
              (fun tok => pyFloat? ((splitChar ':' tok).headD ""))
            duration :=
              if (pySplitWS (pyStrip raw)).filterMap
                  (fun tok => pyFloat? ((splitChar ':' tok).headD "")) ≠ [] then
                some (listMax ((pySplitWS (pyStrip raw)).filterMap
                        (fun tok => pyFloat? ((splitChar ':' tok).headD ""))) -
                      listMin ((pySplitWS (pyStrip raw)).filterMap
                        (fun tok => pyFloat? ((splitChar ':' tok).headD ""))))
              else none } := by
        unfold parse_condition_files
        rw [hfs]
        simp only [if_pos hcond]
      rw [hrepr]
      refine ⟨?_, ?_, ?_⟩
      · by_cases htp : (pySplitWS (pyStrip raw)).filterMap
            (fun tok => pyFloat? ((splitChar ':' tok).headD "")) = []
        · simp [htp]
        · simp [htp]
      · intro content hcontent hstar
        have hcr : raw = content := by injection hcontent
        subst hcr
        exact absurd (pyStrip_starts_star hstar).1 hcond.2
      · intro htp
        exact ⟨if_pos htp, sub_nonneg.mpr (listMin_le_listMax htp)⟩
    · have hrepr : parse_condition_files fs path =
          { file_path := path
            participant_id := some (extract_participant_id (basename path))
            condition_type := some (parse_condition_filename (basename path)).1
            stimulus_type := some (parse_condition_filename (basename path)).2
            timing_points := []
            duration := none } := by
        unfold parse_condition_files
        rw [hfs]
        simp only [if_neg hcond]
      rw [hrepr]
      exact ⟨by simp, fun _ _ _ => rfl, fun h => absurd rfl h⟩

theorem C9_duration_invariant_witness :
    (parse_condition_files
        (fun p => if p = "files/S01_PV_tool.txt" then some "10 20" else none)
        "files/S01_PV_tool.txt").duration =
      some (listMax (parse_condition_files
              (fun p => if p = "files/S01_PV_tool.txt" then some "10 20" else none)
              "files/S01_PV_tool.txt").timing_points -
            listMin (parse_condition_files
              (fun p => if p = "files/S01_PV_tool.txt" then some "10 20" else none)
              "files/S01_PV_tool.txt").timing_points) ∧
    0 ≤ listMax (parse_condition_files
          (fun p => if p = "files/S01_PV_tool.txt" then some "10 20" else none)
          "files/S01_PV_tool.txt").timing_points -
        listMin (parse_condition_files
          (fun p => if p = "files/S01_PV_tool.txt" then some "10 20" else none)
          "files/S01_PV_tool.txt").timing_points :=
  (C9_duration_invariant
    (fun p => if p = "files/S01_PV_tool.txt" then some "10 20" else none)
    "files/S01_PV_tool.txt").2.2 (by decide)

/-- Outcome predicate for one loop step: the property holds for the
accumulator whether the step succeeded or raised. -/
def ExceptOK (Φ : LogData → Prop) : Except LogData (LogData × Bool) → Prop
  | .error d => Φ d
  | .ok (a, _) => Φ a

/-- Outcome predicate for inner steps. -/
def ExceptOK1 (Φ : LogData → Prop) : Except LogData LogData → Prop
  | .error d => Φ d
  | .ok a => Φ a

theorem step1_pres (Φ : LogData → Prop)
    (h : ∀ a t, Φ a → Φ { a with scan_start := some t })
    (ts c : String) (acc : LogData) (st : Bool) (hacc : Φ acc) :
    ExceptOK Φ (step1 ts c acc st) := by
  unfold step1 getFloat
  by_cases hc : strContains c "start of scan" = true
  · rw [if_pos hc]
    cases hp : pyFloat? ts with
    | none => exact hacc
    | some t => exact h _ _ hacc
  · rw [if_neg hc]; exact hacc

theorem step2_pres (Φ : LogData → Prop)
    (h : ∀ a t, Φ a → Φ { a with scan_end := some t })
    (ts c : String) (st : Bool) (acc : LogData) (hacc : Φ acc) :
    ExceptOK1 Φ (step2 ts c st acc) := by
  unfold step2 getFloat
  by_cases hc : (strContains c "window1: mouseVisible = True" && st) = true
  · rw [if_pos hc]
    cases hp : pyFloat? ts with
    | none => exact hacc
    | some t => exact h _ _ hacc
  · rw [if_neg hc]; exact hacc

theorem step3_pres (Φ : LogData → Prop)
    (h : ∀ a x, Φ a → Φ { a with trials := a.trials ++ [x] })
    (ts c : String) (st : Bool) (acc : LogData) (hacc : Φ acc) :
    ExceptOK1 Φ (step3 ts c st acc) := by
  unfold step3 getFloat
  by_cases hc : (st && strContains c "New trial") = true
  · rw [if_pos hc]
    cases hp : pyFloat? ts with
    | none => exact hacc
    | some t => exact h _ _ hacc
  · rw [if_neg hc]; exact hacc

theorem step4_pres (Φ : LogData → Prop)
    (h : ∀ a x, Φ a → Φ { a with stimulus_timings := a.stimulus_timings ++ [x] })
    (ts c : String) (st : Bool) (acc : LogData) (hacc : Φ acc) :
    ExceptOK1 Φ (step4 ts c st acc) := by
  unfold step4 getFloat
  by_cases hc : (st && strContains c "autoDraw = True") = true
  · rw [if_pos hc]
    cases hn : stimName c with
    | none => exact hacc
    | some nm =>
      cases hp : pyFloat? ts with
      | none => exact hacc
      | some t => exact h _ _ hacc
  · rw [if_neg hc]; exact hacc

theorem step5_pres (Φ : LogData → Prop)
    (h : ∀ a x, Φ a → Φ { a with keypresses := a.keypresses ++ [x] })
    (ts c : String) (st : Bool) (acc : LogData) (hacc : Φ acc) :
    ExceptOK1 Φ (step5 ts c st acc) := by
  unfold step5 getFloat
  by_cases hc : (st && strContains c "Keypress:") = true
  · rw [if_pos hc]
    cases hn : keyName c with
    | none => exact hacc
    | some k =>
      cases hp : pyFloat? ts with
      | none => exact hacc
      | some t => exact h _ _ hacc
  · rw [if_neg hc]; exact hacc

theorem stepBody_pres (Φ : LogData → Prop)
    (h1 : ∀ a t, Φ a → Φ { a with scan_start := some t })
    (h2 : ∀ a t, Φ a → Φ { a with scan_end := some t })
    (h3 : ∀ a x, Φ a → Φ { a with trials := a.trials ++ [x] })
    (h4 : ∀ a x, Φ a → Φ { a with stimulus_timings := a.stimulus_timings ++ [x] })
    (h5 : ∀ a x, Φ a → Φ { a with keypresses := a.keypresses ++ [x] })
    (ts c : String) (acc : LogData) (st : Bool) (hacc : Φ acc) :
    ExceptOK Φ (stepBody ts c acc st) := by
  unfold stepBody
  split
  next d heq =>
    have H := step1_pres Φ h1 ts c acc st hacc
    rw [heq] at H
    exact H
  next a1 st1 heq =>
    have H1 := step1_pres Φ h1 ts c acc st hacc
    rw [heq] at H1
    have H1' : Φ a1 := H1
    split
    next d heq2 =>
      have H := step2_pres Φ h2 ts c st1 a1 H1'
      rw [heq2] at H
      exact H
    next a2 heq2 =>
      have H2 := step2_pres Φ h2 ts c st1 a1 H1'
      rw [heq2] at H2
      have H2' : Φ a2 := H2
      split
      next d heq3 =>
        have H := step3_pres Φ h3 ts c st1 a2 H2'
        rw [heq3] at H
        exact H
      next a3 heq3 =>
        have H3 := step3_pres Φ h3 ts c st1 a2 H2'
        rw [heq3] at H3
        have H3' : Φ a3 := H3
        split
        next d heq4 =>
          have H := step4_pres Φ h4 ts c st1 a3 H3'
          rw [heq4] at H
          exact H
        next a4 heq4 =>
          have H4 := step4_pres Φ h4 ts c st1 a3 H3'
          rw [heq4] at H4
          have H4' : Φ a4 := H4
          split
          next d heq5 =>
            have H := step5_pres Φ h5 ts c st1 a4 H4'
            rw [heq5] at H
            exact H
          next a5 heq5 =>
            have H5 := step5_pres Φ h5 ts c st1 a4 H4'
            rw [heq5] at H5
            exact H5

theorem stepLine_pres (Φ : LogData → Prop)
    (h1 : ∀ a t, Φ a → Φ { a with scan_start := some t })
    (h2 : ∀ a t, Φ a → Φ { a with scan_end := some t })
    (h3 : ∀ a x, Φ a → Φ { a with trials := a.trials ++ [x] })
    (h4 : ∀ a x, Φ a → Φ { a with stimulus_timings := a.stimulus_timings ++ [x] })
    (h5 : ∀ a x, Φ a → Φ { a with keypresses := a.keypresses ++ [x] })
    (acc : LogData) (st : Bool) (l : String) (hacc : Φ acc) :
    ExceptOK Φ (stepLine acc st l) := by
  unfold stepLine
  cases lineParts l with
  | none => exact hacc
  | some tc =>
    obtain ⟨ts, c⟩ := tc
    exact stepBody_pres Φ h1 h2 h3 h4 h5 ts c acc st hacc

theorem processLines_pres (Φ : LogData → Prop)
    (h1 : ∀ a t, Φ a → Φ { a with scan_start := some t })
    (h2 : ∀ a t, Φ a → Φ { a with scan_end := some t })
    (h3 : ∀ a x, Φ a → Φ { a with trials := a.trials ++ [x] })
    (h4 : ∀ a x, Φ a → Φ { a with stimulus_timings := a.stimulus_timings ++ [x] })
    (h5 : ∀ a x, Φ a → Φ { a with keypresses := a.keypresses ++ [x] }) :
    ∀ (lines : List String) (acc : LogData) (st : Bool),
      Φ acc → Φ (processLines lines acc st) := by
  intro lines
  induction lines with
  | nil => intro acc st h; exact h
  | cons l rest ih =>
    intro acc st h
    unfold processLines
    have H := stepLine_pres Φ h1 h2 h3 h4 h5 acc st l h
    cases hs : stepLine acc st l with
    | error d => rw [hs] at H; exact H
    | ok p =>
      obtain ⟨a2, s2⟩ := p
      rw [hs] at H
      exact ih a2 s2 H

/-- The loop `processLines` never changes `file_path`, `participant_id` or
`condition`. -/
theorem processLines_meta (lines : List String) (acc : LogData) (st : Bool) :
    (processLines lines acc st).file_path = acc.file_path ∧
    (processLines lines acc st).participant_id = acc.participant_id ∧
    (processLines lines acc st).condition = acc.condition := by
  have := processLines_pres
    (fun a => a.file_path = acc.file_path ∧ a.participant_id = acc.participant_id ∧
      a.condition = acc.condition)
    (by intro a t h; exact h) (by intro a t h; exact h) (by intro a x h; exact h)
    (by intro a x h; exact h) (by intro a x h; exact h)
    lines acc st ⟨rfl, rfl, rfl⟩
  exact this

/-- C3: the two parsing functions are total in the embedding (they never
raise): every exception inside the Python `try` is caught and the
partially-populated dictionary — always carrying `file_path` — is
returned.  When reading the file fails, `parse_psychopy_logs` returns
exactly the initial dictionary, and `parse_condition_files` returns the
dictionary with the filename metadata set and no timing data. -/
theorem C3_parsers_never_raise (fs : String → Option String) (path : String) :
    (parse_psychopy_logs fs path).file_path = path ∧
    (parse_condition_files fs path).file_path = path ∧
    (fs path = none → parse_psychopy_logs fs path = initLogData path) ∧
    (fs path = none →
      (parse_condition_files fs path).timing_points = [] ∧
      (parse_condition_files fs path).duration = none ∧
      (parse_condition_files fs path).participant_id =
        some (extract_participant_id (basename path))) := by
  refine ⟨?_, ?_, ?_, ?_⟩
  · unfold parse_psychopy_logs
    cases hfs : fs path with
    | none => rfl
    | some text => exact (processLines_meta _ _ _).1
  · cases hfs : fs path with
    | none =>
      unfold parse_condition_files
      rw [hfs]
    | some raw =>
      by_cases hcond : pyStrip raw ≠ "" ∧ ¬ pyStarts (pyStrip raw) "*" = true
      · unfold parse_condition_files
        rw [hfs]
        simp only [if_pos hcond]
      · unfold parse_condition_files
        rw [hfs]
        simp only [if_neg hcond]
  · intro h
    unfold parse_psychopy_logs
    rw [h]
  · intro h
    unfold parse_condition_files
    rw [h]
    exact ⟨rfl, rfl, rfl⟩

theorem C3_parsers_never_raise_witness :
    parse_psychopy_logs (fun _ => none) "missing.log" = initLogData "missing.log" ∧
    (parse_condition_files (fun _ => none) "missing.txt").timing_points = [] :=
  ⟨(C3_parsers_never_raise (fun _ => none) "missing.log").2.2.1 rfl,
   ((C3_parsers_never_raise (fun _ => none) "missing.txt").2.2.2 rfl).1⟩

/-- Non-empty pieces of a whitespace split. -/
def filterSplit (p : Char → Bool) (l : List Char) : List String :=
  (splitPredAux p l []).filter (· ≠ "")

theorem splitPredAux_nil (p : Char → Bool) (acc : List Char) :
    splitPredAux p [] acc = [String.mk acc.reverse] := by
  rw [splitPredAux]

theorem splitPredAux_cons (p : Char → Bool) (x : Char) (xs acc : List Char) :
    splitPredAux p (x :: xs) acc =
      if p x = true then String.mk acc.reverse :: splitPredAux p xs []
      else splitPredAux p xs (x :: acc) := by
  rw [splitPredAux]

theorem filterSplit_dropWhile (p : Char → Bool) :
    ∀ l : List Char, filterSplit p (l.dropWhile p) = filterSplit p l := by
  intro l
  induction l with
  | nil => rfl
  | cons x xs ih =>
    by_cases hx : p x = true
    · rw [List.dropWhile_cons, if_pos hx, ih]
      unfold filterSplit
      rw [splitPredAux_cons, if_pos hx]
      simp
    · rw [List.dropWhile_cons, if_neg (by simp [hx])]

theorem splitPredAux_append_ws (p : Char → Bool) {w : Char} (hw : p w = true) :
    ∀ (xs acc : List Char),
      splitPredAux p (xs ++ [w]) acc = splitPredAux p xs acc ++ [""] := by
  intro xs
  induction xs with
  | nil =>
    intro acc
    show splitPredAux p (w :: []) acc = splitPredAux p [] acc ++ [""]
    rw [splitPredAux_cons, if_pos hw, splitPredAux_nil, splitPredAux_nil]
    rfl
  | cons x xs ih =>
    intro acc
    show splitPredAux p (x :: (xs ++ [w])) acc = splitPredAux p (x :: xs) acc ++ [""]
    rw [splitPredAux_cons, splitPredAux_cons]
    by_cases hx : p x = true
    · rw [if_pos hx, if_pos hx, ih]
      rfl
    · rw [if_neg hx, if_neg hx, ih]

theorem filterSplit_append_ws (p : Char → Bool) :
    ∀ (suf : List Char), (∀ w ∈ suf, p w = true) →
      ∀ m : List Char, filterSplit p (m ++ suf) = filterSplit p m := by
  intro suf
  induction suf with
  | nil => intro _ m; simp
  | cons w suf ih =>
    intro hws m
    have hw : p w = true := hws w (by simp)
    have step : filterSplit p (m ++ [w]) = filterSplit p m := by
      unfold filterSplit
      rw [splitPredAux_append_ws p hw]
      simp
    calc filterSplit p (m ++ w :: suf) = filterSplit p ((m ++ [w]) ++ suf) := by simp
    _ = filterSplit p (m ++ [w]) := ih (fun x hx => hws x (by simp [hx])) (m ++ [w])
    _ = filterSplit p m := step

theorem filterSplit_dropTrail (p : Char → Bool) (m : List Char) :
    filterSplit p ((m.reverse.dropWhile p).reverse) = filterSplit p m := by
  have hdec : m = (m.reverse.dropWhile p).reverse ++ (m.reverse.takeWhile p).reverse := by
    have h1 : m.reverse = m.reverse.takeWhile p ++ m.reverse.dropWhile p :=
      (List.takeWhile_append_dropWhile ..).symm
    calc m = m.reverse.reverse := (List.reverse_reverse m).symm
    _ = (m.reverse.takeWhile p ++ m.reverse.dropWhile p).reverse := by rw [← h1]
    _ = (m.reverse.dropWhile p).reverse ++ (m.reverse.takeWhile p).reverse := by
        rw [List.reverse_append]
  have hws : ∀ w ∈ (m.reverse.takeWhile p).reverse, p w = true := by
    intro w hw
    exact List.mem_takeWhile_imp (by simpa using hw)
  conv_rhs => rw [hdec]
  rw [filterSplit_append_ws p _ hws]

/-- Stripping surrounding whitespace does not change the whitespace-split
tokens. -/
theorem pySplitWS_pyStrip (s : String) : pySplitWS (pyStrip s) = pySplitWS s := by
  show filterSplit pyWS (((s.data.dropWhile pyWS).reverse.dropWhile pyWS).reverse) =
    filterSplit pyWS s.data
  rw [filterSplit_dropTrail, filterSplit_dropWhile]

/-- C2 counterexample: the file content `" * 1 2"` does not start with
`'*'`, yet `parse_condition_files` returns no timing points, while the
float-conversion of the whitespace-split tokens of the file yields
`[1, 2]`. -/
theorem C2_counterexample :
    pyStarts " * 1 2" "*" = false ∧
    (parse_condition_files
        (fun p => if p = "c.txt" then some " * 1 2" else none) "c.txt").timing_points = [] ∧
    (pySplitWS " * 1 2").filterMap
      (fun tok => pyFloat? ((splitChar ':' tok).headD "")) = [mkRat 1 1, mkRat 2 1] := by
  refine ⟨by decide, by decide, by decide⟩

/-- C2 amended: for every condition timing file whose content, after
stripping surrounding whitespace, does not start with `'*'`,
`parse_condition_files` returns `timing_points` equal to the floats
obtained from the whitespace-split tokens of the file (taking the part
before any `':'` in each token and skipping tokens that do not convert),
and `duration = max - min` when `timing_points` is non-empty. -/
theorem C2_amended (fs : String → Option String) (path content : String)
    (hc : fs path = some content)
    (hstar : pyStarts (pyStrip content) "*" = false) :
    (parse_condition_files fs path).timing_points =
      (pySplitWS content).filterMap
        (fun tok => pyFloat? ((splitChar ':' tok).headD "")) ∧
    ((parse_condition_files fs path).timing_points ≠ [] →
      (parse_condition_files fs path).duration =
        some (listMax (parse_condition_files fs path).timing_points -
              listMin (parse_condition_files fs path).timing_points)) := by
  by_cases hemp : pyStrip content = ""
  · have hnot : ¬ (pyStrip content ≠ "" ∧ ¬ pyStarts (pyStrip content) "*" = true) := by
      simp [hemp]
    have hbase : (parse_condition_files fs path).timing_points = [] := by
      unfold parse_condition_files
      rw [hc]
      simp only [if_neg hnot]
    have hrhs : pySplitWS content = [] := by
      rw [← pySplitWS_pyStrip, hemp]
      rfl
    rw [hbase, hrhs]
    exact ⟨rfl, fun h => absurd rfl h⟩
  · have hcond : pyStrip content ≠ "" ∧ ¬ pyStarts (pyStrip content) "*" = true :=
      ⟨hemp, by rw [hstar]; simp⟩
    have hrepr : (parse_condition_files fs path).timing_points =
        (pySplitWS (pyStrip content)).filterMap
          (fun tok => pyFloat? ((splitChar ':' tok).headD "")) := by
      unfold parse_condition_files
      rw [hc]
      simp only [if_pos hcond]
    constructor
    · rw [hrepr, pySplitWS_pyStrip]
    · intro htp
      have hd : (parse_condition_files fs path).duration =
          if (parse_condition_files fs path).timing_points ≠ [] then
            some (listMax (parse_condition_files fs path).timing_points -
                  listMin (parse_condition_files fs path).timing_points)
          else none := by
        unfold parse_condition_files
        rw [hc]
        simp only [if_pos hcond]
      rw [hd, if_pos htp]

theorem C2_amended_witness :
    (parse_condition_files
        (fun p => if p = "c2.txt" then some " 5 7:16 x " else none) "c2.txt").timing_points =
      (pySplitWS " 5 7:16 x ").filterMap
        (fun tok => pyFloat? ((splitChar ':' tok).headD "")) :=
  (C2_amended (fun p => if p = "c2.txt" then some " 5 7:16 x " else none) "c2.txt"
    " 5 7:16 x " rfl (by decide)).1

/-- A concrete file system with one matching log/condition pair for S02:
the log contains a scan start, one trial and one stimulus presentation. -/
def fs5c : String → Option String := fun p =>
  if p = "S02_passive.log" then
    some "1.0\tEXP\tstart of scan\n2.0\tEXP\tNew trial\n3.0\tEXP\timage1: autoDraw = True"
  else if p = "S02_PV_tool.txt" then some "0 10"
  else none

/-- C5 counterexample: a matched log/condition pair whose combined trial
record has a stimulus onset but no stimulus offset — the pipeline never
writes a `stimulus_offset` key, refuting "each combined trial record
carries both a stimulus onset and a stimulus offset timestamp". -/
theorem C5_counterexample :
    match_log_condition (parse_psychopy_logs fs5c "S02_passive.log")
      (parse_condition_files fs5c "S02_PV_tool.txt") = true ∧
    (combine_log_condition_data (parse_psychopy_logs fs5c "S02_passive.log")
      (parse_condition_files fs5c "S02_PV_tool.txt")).map TrialRecord.stimulus_offset
      = [none] ∧
    (combine_log_condition_data (parse_psychopy_logs fs5c "S02_passive.log")
      (parse_condition_files fs5c "S02_PV_tool.txt")).map TrialRecord.stimulus_onset
      = [some (mkRat 3 1)] := by
  refine ⟨by decide, by decide, by decide⟩

/-- C5 amended: every trial record produced by
`_combine_log_condition_data` is a flat record carrying the participant
id, condition, stimulus type and trial number, carries a stimulus onset
exactly when the log has an i-th stimulus timing, and never carries a
stimulus offset. -/
theorem C5_amended (log : LogData) (cond : CondData) (i : ℕ)
    (h : i < (combine_log_condition_data log cond).length) :
    ((combine_log_condition_data log cond).get ⟨i, h⟩).participant_id = log.participant_id ∧
    ((combine_log_condition_data log cond).get ⟨i, h⟩).condition = log.condition ∧
    ((combine_log_condition_data log cond).get ⟨i, h⟩).stimulus_type = cond.stimulus_type ∧
    ((combine_log_condition_data log cond).get ⟨i, h⟩).trial_number = i + 1 ∧
    ((combine_log_condition_data log cond).get ⟨i, h⟩).stimulus_onset =
      (log.stimulus_timings.get? i).map StimTiming.onset ∧
    ((combine_log_condition_data log cond).get ⟨i, h⟩).stimulus_offset = none := by
  have hi : i < log.trials.enum.length := by
    simpa [combine_log_condition_data] using h
  have hget : (combine_log_condition_data log cond).get ⟨i, h⟩ =
      (fun p : ℕ × TrialInfo =>
        ({ participant_id := log.participant_id
           condition := log.condition
           stimulus_type := cond.stimulus_type
           trial_number := p.1 + 1
           trial_timestamp := some p.2.trial_timestamp
           image_file := p.2.image_file
           scan_start := log.scan_start
           scan_end := log.scan_end
           timing_points := cond.timing_points
           condition_duration := cond.duration
           stimulus_onset := (log.stimulus_timings.get? p.1).map StimTiming.onset
           stimulus_name := (log.stimulus_timings.get? p.1).map StimTiming.stimulus
           stimulus_offset := none
           run_number := none
           run_description := none } : TrialRecord)) (log.trials.enum.get ⟨i, hi⟩) := by
    simp [combine_log_condition_data]
  have henum : log.trials.enum.get ⟨i, hi⟩ =
      (i, log.trials.get ⟨i, by simpa using hi⟩) := by
    simp [List.getElem_enum]
  rw [hget, henum]
  exact ⟨rfl, rfl, rfl, rfl, rfl, rfl⟩

theorem C5_amended_witness :
    ((combine_log_condition_data (parse_psychopy_logs fs5c "S02_passive.log")
        (parse_condition_files fs5c "S02_PV_tool.txt")).get ⟨0, by decide⟩).stimulus_offset
      = none ∧
    ((combine_log_condition_data (parse_psychopy_logs fs5c "S02_passive.log")
        (parse_condition_files fs5c "S02_PV_tool.txt")).get ⟨0, by decide⟩).trial_number
      = 0 + 1 :=
  ⟨(C5_amended (parse_psychopy_logs fs5c "S02_passive.log")
      (parse_condition_files fs5c "S02_PV_tool.txt") 0 (by decide)).2.2.2.2.2,
   (C5_amended (parse_psychopy_logs fs5c "S02_passive.log")
      (parse_condition_files fs5c "S02_PV_tool.txt") 0 (by decide)).2.2.2.1⟩

theorem capPreds_append : ∀ (a b : List RE), capPreds (a ++ b) = capPreds a ++ capPreds b := by
  intro a b
  induction a with
  | nil => rfl
  | cons hd rest ih =>
    cases hd with
    | lit c => simpa [capPreds] using ih
    | plus p cap => cases cap <;> simp [capPreds, ih]

theorem capPreds_lits (s : String) : capPreds (lits s) = [] := by
  show capPreds (s.data.map RE.lit) = []
  induction s.data with
  | nil => rfl
  | cons c l ih => simpa [capPreds] using ih

/-- The first component returned by `_parse_condition_filename` is never
the empty string: it is either a non-empty `\w+` capture or the literal
`"unknown"`. -/
theorem parse_condition_filename_fst_ne (fn : String) :
    (parse_condition_filename fn).1 ≠ "" := by
  unfold parse_condition_filename
  cases h : reMatch ([RE.lit 'S', RE.plus Char.isDigit false, RE.lit '_',
      RE.plus wordChar true, RE.lit '_', RE.plus wordChar true] ++ lits ".txt") fn.data with
  | none => decide
  | some caps =>
    have hF := reMatch_caps _ _ _ h
    rw [capPreds_append, capPreds_lits] at hF
    obtain ⟨c, d, hcd, hc, _⟩ := forall₂_two (by simpa using hF)
    rw [hcd]
    intro hcon
    exact hc.1 (by simpa using congrArg String.data hcon)

/-- The parser `parse_condition_files` always sets `condition_type` from the
filename, whatever the file contents. -/
theorem parse_condition_files_ct (fs : String → Option String) (path : String) :
    (parse_condition_files fs path).condition_type =
      some (parse_condition_filename (basename path)).1 := by
  cases hfs : fs path with
  | none =>
    unfold parse_condition_files
    rw [hfs]
  | some raw =>
    by_cases hcond : pyStrip raw ≠ "" ∧ ¬ pyStarts (pyStrip raw) "*" = true
    · unfold parse_condition_files
      rw [hfs]
      simp only [if_pos hcond]
    · unfold parse_condition_files
      rw [hfs]
      simp only [if_neg hcond]

/-- A file system holding only the S01 clench run log and the clench
condition file. -/
def fs1c : String → Option String := fun p =>
  if p = "data/raw/S01/experimental_runs/run03_clench/S01_run03_clench_2020_Mar_11_1350.log"
  then some "1.0\tEXP\tstart of scan\n2.0\tEXP\tNew trial"
  else if p = "data/raw/S01/condition_files/S01_clench.txt" then some "10 20"
  else none

/-- C1 counterexample: in the S01 complete-design path of
`create_trial_dataframe` a trial record is derived from a log/condition
pair that `_match_log_condition` rejects (the clench log maps to code
`"clench"` while `S01_clench.txt` parses to `condition_type "unknown"`),
refuting "trial records are derived only from matched pairs". -/
theorem C1_counterexample :
    match_log_condition
      (parse_psychopy_logs fs1c
        "data/raw/S01/experimental_runs/run03_clench/S01_run03_clench_2020_Mar_11_1350.log")
      (parse_condition_files fs1c "data/raw/S01/condition_files/S01_clench.txt") = false ∧
    (process_s01_complete_design fs1c "data").length = 1 := by
  refine ⟨by decide, by decide⟩

/-- C1 amended: `_match_log_condition` accepts exactly the pairs whose
participant IDs are equal and whose log condition, mapped through the
fixed code table, equals the condition file's `condition_type`; and in
the standard (non-S01) path every trial record does come from a pair the
check accepts.  (The S01 complete-design path combines log and condition
data without the check — see the counterexample.) -/
theorem C1_match_characterisation :
    (∀ (log : LogData) (fs : String → Option String) (cpath : String),
      match_log_condition log (parse_condition_files fs cpath) = true ↔
        (log.participant_id = (parse_condition_files fs cpath).participant_id ∧
         ∃ code, log.condition.bind condition_mapping = some code ∧
           (parse_condition_files fs cpath).condition_type = some code)) ∧
    (∀ (fs : String → Option String) (lfs cfs : List String) (r : TrialRecord),
      r ∈ standard_participant_trials fs lfs cfs →
        ∃ lf ∈ lfs, ∃ cf ∈ cfs,
          match_log_condition (parse_psychopy_logs fs lf)
            (parse_condition_files fs cf) = true ∧
          r ∈ combine_log_condition_data (parse_psychopy_logs fs lf)
            (parse_condition_files fs cf)) := by
  constructor
  · intro log fs cpath
    constructor
    · intro h
      unfold match_log_condition at h
      by_cases hpid :
          (log.participant_id != (parse_condition_files fs cpath).participant_id) = true
      · rw [if_pos hpid] at h
        exact absurd h (by decide)
      · rw [if_neg hpid] at h
        have hpideq : log.participant_id = (parse_condition_files fs cpath).participant_id := by
          rw [bne_iff_ne] at hpid
          exact not_not.mp hpid
        refine ⟨hpideq, ?_⟩
        cases hct : (parse_condition_files fs cpath).condition_type with
        | none => rw [hct] at h; simp at h
        | some ct =>
          rw [hct] at h
          have hcode : (match log.condition with
              | none => ""
              | some c => (condition_mapping c).getD "") = ct := eq_of_beq h
          have hctne : ct ≠ "" := by
            have h1 := parse_condition_files_ct fs cpath
            rw [hct] at h1
            have h2 : ct = (parse_condition_filename (basename cpath)).1 := by
              injection h1
            rw [h2]
            exact parse_condition_filename_fst_ne (basename cpath)
          cases hlc : log.condition with
          | none =>
            rw [hlc] at hcode
            have hcode2 : "" = ct := hcode
            exact absurd hcode2.symm hctne
          | some c =>
            rw [hlc] at hcode
            have hcode2 : (condition_mapping c).getD "" = ct := hcode
            cases hm : condition_mapping c with
            | none =>
              rw [hm] at hcode2
              have : ct = "" := by simpa using hcode2.symm
              exact absurd this hctne
            | some v =>
              rw [hm] at hcode2
              have hv : v = ct := by simpa using hcode2
              exact ⟨v, by simpa using hm, by rw [hv]⟩
    · rintro ⟨hpid, code, hbind, hct⟩
      unfold match_log_condition
      have hpne :
          (log.participant_id != (parse_condition_files fs cpath).participant_id) = false := by
        rw [hpid]
        simp
      rw [if_neg (by simp [hpne]), hct]
      cases hlc : log.condition with
      | none => rw [hlc] at hbind; simp at hbind
      | some c =>
        rw [hlc] at hbind
        have hb2 : condition_mapping c = some code := by simpa using hbind
        show (((condition_mapping c).getD "") == code) = true
        rw [hb2]
        simp
  · intro fs lfs cfs r hr
    unfold standard_participant_trials at hr
    rw [List.mem_flatMap] at hr
    obtain ⟨lf, hlf, hr2⟩ := hr
    rw [List.mem_flatMap] at hr2
    obtain ⟨cf, hcf, hr3⟩ := hr2
    by_cases hm : match_log_condition (parse_psychopy_logs fs lf)
        (parse_condition_files fs cf) = true
    · rw [if_pos hm] at hr3
      exact ⟨lf, hlf, cf, hcf, hm, hr3⟩
    · rw [if_neg hm] at hr3
      exact absurd hr3 (List.not_mem_nil r)

theorem C1_match_characterisation_witness :
    ∃ lf ∈ ["S02_passive.log"], ∃ cf ∈ ["S02_PV_tool.txt"],
      match_log_condition (parse_psychopy_logs fs5c lf)
        (parse_condition_files fs5c cf) = true ∧
      (standard_participant_trials fs5c ["S02_passive.log"]
          ["S02_PV_tool.txt"]).get ⟨0, by decide⟩
        ∈ combine_log_condition_data (parse_psychopy_logs fs5c lf)
            (parse_condition_files fs5c cf) :=
  C1_match_characterisation.2 fs5c ["S02_passive.log"] ["S02_PV_tool.txt"]
    ((standard_participant_trials fs5c ["S02_passive.log"]
        ["S02_PV_tool.txt"]).get ⟨0, by decide⟩)
    (List.get_mem _ _ (by decide))

/-- Records produced for one S01 run are stamped with that run's number. -/
theorem run_trials_run_number (fs : String → Option String) (root : String)
    (run : S01Run) : ∀ rec ∈ run_trials fs root run,
      rec.run_number = some run.run_number := by
  intro rec h
  unfold run_trials at h
  rw [List.mem_flatMap] at h
  obtain ⟨cf, _, h2⟩ := h
  rw [List.mem_map] at h2
  obtain ⟨t, _, rfl⟩ := h2
  rfl

/-- Membership characterisation of the S01 complete-design output. -/
theorem process_s01_mem (fs : String → Option String) (root : String)
    (rec : TrialRecord) :
    rec ∈ process_s01_complete_design fs root ↔
      ∃ run ∈ s01_runs, (fs (s01_log_path root run)).isSome = true ∧
        rec ∈ run_trials fs root run := by
  unfold process_s01_complete_design
  rw [List.mem_flatMap]
  constructor
  · rintro ⟨run, hrun, hmem⟩
    by_cases hex : (fs (s01_log_path root run)).isSome = true
    · rw [if_pos hex] at hmem
      exact ⟨run, hrun, hex, hmem⟩
    · rw [if_neg hex] at hmem
      exact absurd hmem (List.not_mem_nil rec)
  · rintro ⟨run, hrun, hex, hmem⟩
    exact ⟨run, hrun, by rw [if_pos hex]; exact hmem⟩

/-- C4: a missing input file is skipped and contributes no entries,
while every remaining file is still processed: (i) a brain-image
mapping entry is loaded exactly when its file exists and opens; (ii) an
S01 run whose log file is missing contributes no trial records, and a
run whose log exists contributes all its records; (iii) an S01 condition
file path is returned exactly when it is one of the condition's patterns
and exists. -/
theorem C4_missing_files_skipped :
    (∀ (ex ld : String → Bool) (raw : String) (e : String × BrainInfo),
      e ∈ load_brain_images ex ld raw ↔
        e ∈ brain_image_mapping ∧ ex (raw ++ "/" ++ e.2.filename) = true ∧
          ld (raw ++ "/" ++ e.2.filename) = true) ∧
    (∀ (fs : String → Option String) (root : String) (run : S01Run),
      run ∈ s01_runs → fs (s01_log_path root run) = none →
        ∀ rec ∈ process_s01_complete_design fs root,
          rec.run_number ≠ some run.run_number) ∧
    (∀ (fs : String → Option String) (root : String) (run : S01Run),
      run ∈ s01_runs → (fs (s01_log_path root run)).isSome = true →
        ∀ rec ∈ run_trials fs root run, rec ∈ process_s01_complete_design fs root) ∧
    (∀ (fs : String → Option String) (root cond f : String),
      f ∈ get_s01_condition_files fs root cond ↔
        ∃ p ∈ s01_condition_patterns cond,
          f = root ++ "/raw/S01/condition_files/" ++ p ∧ (fs f).isSome = true) := by
  refine ⟨?_, ?_, ?_, ?_⟩
  · intro ex ld raw e
    unfold load_brain_images
    rw [List.mem_filter]
    simp [Bool.and_eq_true]
  · intro fs root run hrun hnone rec hrec heq
    obtain ⟨run', hrun', hex', hmem'⟩ := (process_s01_mem fs root rec).mp hrec
    have hnum : rec.run_number = some run'.run_number :=
      run_trials_run_number fs root run' rec hmem'
    have hnn : run'.run_number = run.run_number := by
      rw [hnum] at heq
      injection heq
    have huniq : ∀ r ∈ s01_runs, ∀ r' ∈ s01_runs,
        r.run_number = r'.run_number → r = r' := by decide
    have : run' = run := huniq run' hrun' run hrun hnn
    rw [this] at hex'
    rw [hnone] at hex'
    exact absurd hex' (by decide)
  · intro fs root run hrun hex rec hrec
    exact (process_s01_mem fs root rec).mpr ⟨run, hrun, hex, hrec⟩
  · intro fs root cond f
    unfold get_s01_condition_files
    rw [List.mem_filterMap]
    constructor
    · rintro ⟨p, hp, hf⟩
      by_cases hex : (fs (root ++ "/raw/S01/condition_files/" ++ p)).isSome = true
      · rw [if_pos hex] at hf
        have : root ++ "/raw/S01/condition_files/" ++ p = f := by injection hf
        exact ⟨p, hp, this.symm, by rw [← this]; exact hex⟩
      · rw [if_neg hex] at hf
        cases hf
    · rintro ⟨p, hp, rfl, hex⟩
      exact ⟨p, hp, by rw [if_pos hex]⟩

theorem C4_missing_files_skipped_witness :
    ((process_s01_complete_design fs1c "data").get ⟨0, by decide⟩).run_number ≠
      some (1 : ℕ) :=
  C4_missing_files_skipped.2.1 fs1c "data"
    ⟨"S01/experimental_runs/run01_passive_viewing/S01_run01_passive_viewing_2020_Mar_11_1324.log",
     "passive_viewing", 1, "Passive Viewing Task"⟩
    (by decide) rfl
    ((process_s01_complete_design fs1c "data").get ⟨0, by decide⟩)
    (List.get_mem _ _ (by decide))

/-- One statistical-table row built from a region name, a coordinate and
a stats record. -/
def mkRow (r : String) (c : MNICoord) (s : StatRec) : StatRow :=
  { region := r, mni_x := c.x, mni_y := c.y, mni_z := c.z,
    threshold := s.threshold, p_value := s.p, q_value := s.q }

/-- The rows the spec describes for the list case: the i-th row pairs the
i-th region with the i-th coordinate and the i-th stats record. -/
def rowsOfLists (regions : List String) (coords : List MNICoord)
    (stats : List StatRec) : List StatRow :=
  (regions.zip (coords.zip stats)).map (fun pr => mkRow pr.1 pr.2.1 pr.2.2)

/-- Decidable check of the actual `generate_statistical_tables` row
behaviour for one mapping entry: in the list case one row per region
with that region's data; in the single-coordinate case exactly one row
built from the first region. -/
def tableOK (e : String × BrainInfo) : Bool :=
  match e.2.mni_coords, e.2.stats, tableFor e.2 with
  | Sum.inr coords, Sum.inr stats, some t =>
    t == rowsOfLists e.2.regions coords stats && t.length == e.2.regions.length
  | Sum.inl coord, Sum.inl stat, some t =>
    t == [mkRow (e.2.regions.headD "") coord stat] && t.length == 1
  | _, _, _ => false

theorem tableOK_isSome {e : String × BrainInfo} (h : tableOK e = true) :
    (tableFor e.2).isSome = true := by
  unfold tableOK at h
  split at h <;> simp_all

/-- The table generator `generate_statistical_tables` succeeds and emits one table per input
entry when `tableFor` succeeds on every entry. -/
theorem gst_exists : ∀ (l : List (String × BrainInfo)),
    (∀ e ∈ l, (tableFor e.2).isSome = true) →
    ∃ tables, generate_statistical_tables l = some tables ∧
      tables.length = l.length ∧
      ∀ x ∈ tables, ∃ e ∈ l, x.1 = e.1 ∧ tableFor e.2 = some x.2 := by
  intro l
  induction l with
  | nil => intro _; exact ⟨[], rfl, rfl, by simp⟩
  | cons e l ih =>
    intro h
    have he : (tableFor e.2).isSome = true := h e (by simp)
    obtain ⟨t, ht⟩ := Option.isSome_iff_exists.mp he
    obtain ⟨tl, htl, hlen, hmem⟩ := ih (fun x hx => h x (by simp [hx]))
    refine ⟨(e.1, t) :: tl, ?_, by simp [hlen], ?_⟩
    · unfold generate_statistical_tables at htl ⊢
      rw [List.mapM_cons, ht, htl]
      rfl
    · intro x hx
      rcases List.mem_cons.mp hx with hx1 | hx2
      · exact ⟨e, by simp, by rw [hx1], by rw [hx1]; exact ht⟩
      · obtain ⟨e', he', h1, h2⟩ := hmem x hx2
        exact ⟨e', by simp [he'], h1, h2⟩

/-- C7 counterexample: with every image present, the emitted row counts
are 1, 3, 2, 3 while the region counts are 3, 3, 2, 3 — the single-
coordinate `clench` entry lists three regions but produces one row,
refuting "row count equal to the number of regions". -/
theorem C7_counterexample :
    (generate_statistical_tables
        (load_brain_images (fun _ => true) (fun _ => true) "r")).map
      (fun ts => ts.map (fun x => (x.1, x.2.length)))
      = some [("clench", 1), ("imagined_grasp", 3), ("passive_viewing", 2),
              ("imagined_vs_passive", 3)] ∧
    brain_image_mapping.map (fun e => (e.1, e.2.regions.length))
      = [("clench", 3), ("imagined_grasp", 3), ("passive_viewing", 2),
         ("imagined_vs_passive", 3)] := by
  refine ⟨by decide, by decide⟩

/-- C7 amended: the brain-image lookup table is static and, for every
loaded condition, `generate_statistical_tables` emits one table whose
rows follow the shape of `mni_coords`: one row per region (carrying that
region's MNI x, y, z, threshold, p and q) when `mni_coords` is a list,
and exactly one row built from the first region when it is a single
coordinate record (the `clench` entry, which lists three regions). -/
theorem C7_statistical_tables :
    brain_image_mapping.all tableOK = true ∧
    ∀ (ex ld : String → Bool) (raw : String),
      ∃ tables,
        generate_statistical_tables (load_brain_images ex ld raw) = some tables ∧
        tables.length = (load_brain_images ex ld raw).length ∧
        ∀ x ∈ tables, ∃ info, (x.1, info) ∈ brain_image_mapping ∧
          tableFor info = some x.2 ∧ tableOK (x.1, info) = true := by
  have hall : brain_image_mapping.all tableOK = true := by decide
  refine ⟨hall, ?_⟩
  intro ex ld raw
  have hsub : ∀ e ∈ load_brain_images ex ld raw, e ∈ brain_image_mapping := by
    intro e he
    exact (List.mem_filter.mp he).1
  obtain ⟨tables, h1, h2, h3⟩ := gst_exists (load_brain_images ex ld raw)
    (fun e he => tableOK_isSome (List.all_eq_true.mp hall e (hsub e he)))
  refine ⟨tables, h1, h2, ?_⟩
  intro x hx
  obtain ⟨e, he, hx1, hx2⟩ := h3 x hx
  refine ⟨e.2, ?_, hx2, ?_⟩
  · rw [hx1]
    exact hsub e he
  · have := List.all_eq_true.mp hall e (hsub e he)
    rw [hx1]
    exact this

theorem C7_statistical_tables_witness :
    (generate_statistical_tables
        (load_brain_images (fun _ => true) (fun _ => true) "data/raw")).isSome = true := by
  obtain ⟨tables, h1, _, _⟩ :=
    C7_statistical_tables.2 (fun _ => true) (fun _ => true) "data/raw"
  rw [h1]
  rfl

/-- The content the loop computes for a raw line (`""` for lines the
loop skips). -/
def contentOf (l : String) : String :=
  match lineParts l with
  | none => ""
  | some tc => tc.2

theorem stepBody_no_start (ts c : String) (acc : LogData)
    (h : strContains c "start of scan" = false) :
    stepBody ts c acc false = .ok (acc, false) := by
  unfold stepBody step1 step2 step3 step4 step5
  simp [h]

theorem stepLine_no_start {l : String} (acc : LogData)
    (h : strContains (contentOf l) "start of scan" = false) :
    stepLine acc false l = .ok (acc, false) := by
  unfold contentOf at h
  unfold stepLine
  cases hlp : lineParts l with
  | none => rfl
  | some tc =>
    obtain ⟨ts, c⟩ := tc
    rw [hlp] at h
    exact stepBody_no_start ts c acc h

theorem processLines_no_start : ∀ (lines : List String) (acc : LogData),
    (∀ l ∈ lines, strContains (contentOf l) "start of scan" = false) →
    processLines lines acc false = acc := by
  intro lines
  induction lines with
  | nil => intro acc _; rfl
  | cons l rest ih =>
    intro acc h
    unfold processLines
    rw [stepLine_no_start acc (h l (by simp))]
    exact ih acc (fun x hx => h x (by simp [hx]))

/-- A single-line log whose only line contains both `start of scan` and
`New trial`. -/
def fs8c : String → Option String := fun p =>
  if p = "s.log" then some "1.0\tEXP\tstart of scan New trial" else none

/-- C8 counterexample: the log has exactly one line, whose content
contains `start of scan`, and a trial is recorded from that very line —
so trials are not recorded only from lines occurring strictly after a
line containing `start of scan` (no line occurs after another line at
all in a one-line file). -/
theorem C8_counterexample :
    strContains (contentOf "1.0\tEXP\tstart of scan New trial") "start of scan" = true ∧
    ¬ ((parse_psychopy_logs fs8c "s.log").trials = [] ∨
       ∃ i j : ℕ, j < i ∧
         i < (splitChar '\n' "1.0\tEXP\tstart of scan New trial").length) := by
  constructor
  · decide
  · rintro (h | ⟨i, j, hji, hi⟩)
    · exact absurd h (by decide)
    · have hlen : (splitChar '\n' "1.0\tEXP\tstart of scan New trial").length = 1 := by
        decide
      omega

/-- C8 amended: `parse_psychopy_logs` records trials, stimulus
presentations and keypresses only from lines at or after the first line
whose content contains `"start of scan"` (that line included): dropping
any prefix of lines none of whose contents contains the marker does not
change the result, and when no line contains it the returned dictionary
has `scan_start = None` and no trials, stimulus timings or keypresses. -/
theorem C8_scan_gating :
    (∀ (fs : String → Option String) (path content : String),
      fs path = some content →
      (∀ l ∈ splitChar '\n' content,
        strContains (contentOf l) "start of scan" = false) →
      (parse_psychopy_logs fs path).scan_start = none ∧
      (parse_psychopy_logs fs path).trials = [] ∧
      (parse_psychopy_logs fs path).stimulus_timings = [] ∧
      (parse_psychopy_logs fs path).keypresses = []) ∧
    (∀ (pre post : List String) (acc : LogData),
      (∀ l ∈ pre, strContains (contentOf l) "start of scan" = false) →
      processLines (pre ++ post) acc false = processLines post acc false) := by
  constructor
  · intro fs path content hc hns
    have hres : parse_psychopy_logs fs path =
        { initLogData path with
          participant_id := some (extract_participant_id (basename path))
          condition := some (extract_condition (basename path)) } := by
      unfold parse_psychopy_logs
      rw [hc]
      exact processLines_no_start _ _ hns
    rw [hres]
    exact ⟨rfl, rfl, rfl, rfl⟩
  · intro pre
    induction pre with
    | nil => intro post acc _; rfl
    | cons l rest ih =>
      intro post acc h
      show (match stepLine acc false l with
            | Except.error d => d
            | Except.ok (acc2, s2) => processLines (rest ++ post) acc2 s2) =
          processLines post acc false
      rw [stepLine_no_start acc (h l (by simp))]
      exact ih post acc (fun x hx => h x (by simp [hx]))

theorem C8_scan_gating_witness :
    processLines (["0.5\tEXP\thello"] ++ ["1.0\tEXP\tstart of scan"])
      (initLogData "p") false =
    processLines ["1.0\tEXP\tstart of scan"] (initLogData "p") false :=
  C8_scan_gating.2 ["0.5\tEXP\thello"] ["1.0\tEXP\tstart of scan"]
    (initLogData "p") (by decide)

theorem sublist_skip {α : Type} {l L : List α} (X : List α) (h : l.Sublist L) :
    l.Sublist (X ++ L) :=
  h.trans (List.sublist_append_right X L)

/-- A string with a given prefix never equals a string that lacks it. -/
theorem append_ne_of_not_starts {a s t : String} (h : pyStarts t a = false) :
    a ++ s ≠ t := by
  intro hcon
  have hstart : pyStarts t a = true := by
    rw [← hcon]
    unfold pyStarts
    rw [String.data_append]
    exact List.isPrefixOf_iff_prefix.mpr ⟨s.data, rfl⟩
  rw [h] at hstart
  exact absurd hstart (by decide)

/-- C6: the CLI parser accepts exactly the empty argument list and the
single optional flag `--verbose` (anything else is a parse error), and
`main` prints the five phase headers in the fixed order 1–5; when the
trial dataframe is empty it prints an error after the PHASE 1 processing
step and returns, so the PHASE 2 header is never printed. -/
theorem C6_cli_and_phase_order :
    parse_args [] = some false ∧
    parse_args ["--verbose"] = some true ∧
    (∀ args : List String, args ≠ [] → args ≠ ["--verbose"] → parse_args args = none) ∧
    (∀ env : MainEnv, env.dfLen ≠ 0 → phaseHeaders.Sublist (mainTrace env)) ∧
    (∀ env : MainEnv, env.dfLen = 0 →
      "PHASE 2: BRAIN IMAGE PROCESSING" ∉ mainTrace env) := by
  refine ⟨rfl, rfl, ?_, ?_, ?_⟩
  · intro args h1 h2
    unfold parse_args
    split
    · exact absurd rfl h1
    · exact absurd rfl h2
    · rfl
  · intro env hne
    unfold mainTrace phaseHeaders
    rw [if_neg hne]
    simp only [List.append_assoc, List.cons_append]
    exact sublist_skip (seg0 env) (List.Sublist.cons₂ _ (sublist_skip seg1
      (sublist_skip (seg2 env) (List.Sublist.cons₂ _ (sublist_skip (seg3 env)
        (List.Sublist.cons₂ _ (sublist_skip (seg4 env) (List.Sublist.cons₂ _
          (sublist_skip (seg5 env) (List.Sublist.cons₂ _ (List.nil_sublist _)))))))))))
  · intro env he hmem
    unfold mainTrace at hmem
    rw [if_pos he] at hmem
    rcases List.mem_append.mp hmem with h1 | h2
    · rcases List.mem_append.mp h1 with h3 | h4
      · simp only [seg0, List.mem_cons, List.not_mem_nil, or_false] at h3
        rcases h3 with h | h | h | h | h
        · exact absurd h (by decide)
        · exact absurd h (by decide)
        · exact absurd h (by decide)
        · exact append_ne_of_not_starts (by decide) h.symm
        · exact absurd h (by decide)
      · simp only [seg1, List.mem_cons, List.not_mem_nil, or_false] at h4
        rcases h4 with h | h | h
        · exact absurd h (by decide)
        · exact absurd h (by decide)
        · exact absurd h (by decide)
    · simp only [List.mem_singleton] at h2
      exact absurd h2 (by decide)

theorem C6_cli_and_phase_order_witness :
    phaseHeaders.Sublist (mainTrace
      ⟨"t1", "t2", 45, true, 3, 20, 20, 5, 3, 2, [], 4, 3, 3, 3, none, [], 10, [],
       "r", "s"⟩) :=
  C6_cli_and_phase_order.2.2.2.1
    ⟨"t1", "t2", 45, true, 3, 20, 20, 5, 3, 2, [], 4, 3, 3, 3, none, [], 10, [],
     "r", "s"⟩ (by decide)
